import Mathlib

/-!
Shallow embedding of the rlox tree-walking interpreter
(`src/token.rs`, `src/ast.rs`, `src/environment.rs`, `src/value.rs`,
`src/visitor.rs`, `src/parser.rs`, `src/lexer.rs`, `src/interpreter.rs`)
together with theorems settling the claims about its specification.

Modelling conventions:
* Rust `f64` numbers are modelled as exact rationals (`Rat`).  Every number
  appearing in a settled claim is a small dyadic/integer value on which IEEE-754
  binary64 arithmetic and exact rational arithmetic agree.
* `Rc<RefCell<Environment>>` state is modelled by explicit state passing; the
  environment chain is threaded through evaluation.  Closure environments are
  captured as values (the claims settled here do not depend on shared mutation
  of captured scopes).
* I/O effects of native functions (time, stdin, stdout) are modelled by an
  explicit output trace and input list; the wall clock is abstracted to 0.
* Recursion in the evaluator and parser is made total with an explicit fuel
  parameter; running out of fuel produces a distinguished diagnostic.  All
  concrete computations in the theorems below use ample fuel.
-/

set_option maxHeartbeats 1600000

namespace RLox

/-- Numeric carrier standing in for Rust `f64`: exact rationals represented
as (not necessarily reduced) numerator/denominator pairs with positive
denominator, so that all arithmetic reduces inside the kernel.  Comparisons
are value comparisons by cross-multiplication.  Division by zero (where
`f64` produces an infinity or NaN) is outside the model; no settled claim
divides by zero. -/
structure RNum where
  num : Int
  den : Int
  deriving DecidableEq, Repr

namespace RNum

def fromNat (n : Nat) : RNum := ⟨n, 1⟩

instance : OfNat RNum n := ⟨fromNat n⟩

def add (a b : RNum) : RNum := ⟨a.num * b.den + b.num * a.den, a.den * b.den⟩

def sub (a b : RNum) : RNum := ⟨a.num * b.den - b.num * a.den, a.den * b.den⟩

def neg (a : RNum) : RNum := ⟨-a.num, a.den⟩

def mul (a b : RNum) : RNum := ⟨a.num * b.num, a.den * b.den⟩

def div (a b : RNum) : RNum :=
  if b.num < 0 then ⟨-(a.num * b.den), a.den * (-b.num)⟩
  else ⟨a.num * b.den, a.den * b.num⟩

/-- `f64::abs`. -/
def rabs (a : RNum) : RNum := ⟨|a.num|, |a.den|⟩

/-- Value equality (what `==` on `f64` computes away from NaN). -/
def req (a b : RNum) : Bool := decide (a.num * b.den = b.num * a.den)

/-- Value strict order (for positive denominators). -/
def rlt (a b : RNum) : Bool := decide (a.num * b.den < b.num * a.den)

/-- Value non-strict order (for positive denominators). -/
def rle (a b : RNum) : Bool := decide (a.num * b.den ≤ b.num * a.den)

/-- The absolute tolerance `0.0000000001` of `Value::is_equal`. -/
def tolerance : RNum := ⟨1, 10 ^ 10⟩

end RNum

/-! ## Tokens (`src/token.rs`) -/

/-- `TokenType` from `src/token.rs`. -/
inductive TokenType where
  | leftParen | rightParen | leftBrace | rightBrace
  | comma | dot | minus | plus | semicolon | slash | star
  | bang | bangEqual | equal | equalEqual
  | greater | greaterEqual | less | lessEqual
  | identifier (name : String)
  | string (text : String)
  | number (value : RNum)
  | and | class' | else' | false' | fun' | for' | if' | nil
  | or | print | ret | super | this | true' | var | while'
  | error (msg : String)
  | skip | eof
  deriving DecidableEq, Repr

/-- `Token` from `src/token.rs`: kind plus column range and line. -/
structure Token where
  m_token : TokenType
  m_col_start : Nat
  m_col_stop : Nat
  m_line : Nat
  deriving DecidableEq, Repr

/-- `TokenType::new_identifier`: keyword table lookup. -/
def TokenType.new_identifier (lexeme : String) : TokenType :=
  match lexeme with
  | "and" => .and
  | "class" => .class'
  | "else" => .else'
  | "false" => .false'
  | "fun" => .fun'
  | "for" => .for'
  | "if" => .if'
  | "nil" => .nil
  | "or" => .or
  | "print" => .print
  | "return" => .ret
  | "super" => .super
  | "this" => .this
  | "true" => .true'
  | "var" => .var
  | "while" => .while'
  | _ => .identifier lexeme

/-- `Token::new_token`: the column range is `start..start+size`. -/
def Token.new_token (token_type : TokenType) (token_start token_size line_number : Nat) :
    Token :=
  { m_token := token_type
    m_col_start := token_start
    m_col_stop := token_start + token_size
    m_line := line_number }

def Token.get_token_type (t : Token) : TokenType := t.m_token

def Token.get_col_range_start (t : Token) : Nat := t.m_col_start

def Token.get_line_number (t : Token) : Nat := t.m_line

/-! ## AST (`src/ast.rs`, in the shape used by `src/parser.rs`)

`src/parser.rs` constructs `Stmt::new_var(name, initializer, statements)`
with a third field of trailing statements, and anonymous function
expressions `Expr::new_function(params, body)`; the `Expr`/`Stmt` below
include those fields, with `m_statements := []` playing the part of a plain
two-field `Var`. -/

mutual
/-- `Expr` from `src/ast.rs` (plus the anonymous `function` variant built by
`Parser::primary`). -/
inductive Expr where
  | binary (m_left : Expr) (m_token : Token) (m_right : Expr)
  | grouping (m_expression : Expr)
  | literal (m_token : Token)
  | unary (m_token : Token) (m_expression : Expr)
  | variable' (m_token : Token)
  | assign (m_token : Token) (m_value : Expr)
  | logical (m_left : Expr) (m_token : Token) (m_right : Expr)
  | call (m_callee : Expr) (m_paren : Token) (m_arguments : List Expr)
  | function (m_params : List Token) (m_body : List Stmt)

/-- `Stmt` from `src/ast.rs` (with the trailing-statements field of `Var`
used by `Parser::declaration`, and the `print` statement handled by
`src/visitor.rs`). -/
inductive Stmt where
  | block (m_statements : List Stmt)
  | expression (m_expression : Expr)
  | print (m_expression : Expr)
  | var (m_name : Token) (m_initializer : Option Expr) (m_statements : List Stmt)
  | while' (m_condition : Expr) (m_body : Stmt)
  | if' (m_condition : Expr) (m_then_branch : Stmt) (m_else_branch : Option Stmt)
  | function (m_name : Token) (m_params : List Token) (m_body : List Stmt)
  | ret (m_keyword : Token) (m_value : Option Expr)
end

/-! ## Environment (`src/environment.rs`)

The scope `HashMap<String, Value>` is modelled as an association list whose
first binding for a key is the current one; `define` (`HashMap::insert`)
replaces an existing binding in place or appends a fresh one, which is
observationally the map semantics of the Rust code.  The node is generic in
the stored value type, exactly as the Rust code never inspects values. -/

/-- One environment node: an owned scope plus an optional shared parent
(`m_parent : Option<Rc<RefCell<Environment>>>` is modelled by the `root` /
`child` constructor split). -/
inductive EnvNode (α : Type) where
  | root (m_scope : List (String × α))
  | child (m_scope : List (String × α)) (m_parent : EnvNode α)

namespace EnvNode

variable {α : Type}

/-- First binding of `name` in a scope (association-list model of
`HashMap::get`). -/
def scopeGet (scope : List (String × α)) (name : String) : Option α :=
  match scope with
  | [] => none
  | (k, v) :: rest => if k = name then some v else scopeGet rest name

/-- `HashMap::insert`: overwrite the binding for `name` or add one. -/
def scopeInsert (scope : List (String × α)) (name : String) (v : α) :
    List (String × α) :=
  match scope with
  | [] => [(name, v)]
  | (k, w) :: rest =>
    if k = name then (k, v) :: rest else (k, w) :: scopeInsert rest name v

/-- `Environment::new`. -/
def new : EnvNode α := .root []

/-- `Environment::new_scope`. -/
def new_scope (parent : EnvNode α) : EnvNode α := .child [] parent

def scope : EnvNode α → List (String × α)
  | .root s => s
  | .child s _ => s

def parent : EnvNode α → Option (EnvNode α)
  | .root _ => none
  | .child _ p => some p

/-- `Environment::define`: always writes into the innermost scope. -/
def define (env : EnvNode α) (name : String) (v : α) : EnvNode α :=
  match env with
  | .root s => .root (scopeInsert s name v)
  | .child s p => .child (scopeInsert s name v) p

/-- `Environment::assign`: write to the nearest enclosing scope containing
`name`, or fail with the Rust error message. -/
def assign (env : EnvNode α) (name : String) (v : α) :
    Except String (EnvNode α) :=
  match env with
  | .root s =>
    match scopeGet s name with
    | some _ => .ok (.root (scopeInsert s name v))
    | none => .error ("Undefined variable '" ++ name ++ "'")
  | .child s p =>
    match scopeGet s name with
    | some _ => .ok (.child (scopeInsert s name v) p)
    | none =>
      match assign p name v with
      | .ok p' => .ok (.child s p')
      | .error e => .error e

/-- `Environment::get`: value from the nearest enclosing scope. -/
def get (env : EnvNode α) (name : String) : Option α :=
  match env with
  | .root s => scopeGet s name
  | .child s p =>
    match scopeGet s name with
    | some v => some v
    | none => get p name

/-- Number of scopes in the chain (spec-side helper for stating the
environment invariants). -/
def depth : EnvNode α → Nat
  | .root _ => 1
  | .child _ p => 1 + depth p

/-- Index (0 = innermost) of the nearest scope containing `name`
(spec-side helper for stating the environment invariants). -/
def nearestContaining : EnvNode α → String → Option Nat
  | .root s, name =>
    match scopeGet s name with
    | some _ => some 0
    | none => none
  | .child s p, name =>
    match scopeGet s name with
    | some _ => some 0
    | none => (nearestContaining p name).map (· + 1)

end EnvNode

/-! ## Values and callables (`src/value.rs`) -/

/-- The native functions registered by `Interpreter::new`
(`src/interpreter.rs`); the function pointer payload of
`Callable::NativeFunction` is represented by this tag, its behaviour by
`nativeApply` below. -/
inductive NativeFn where
  | clock | sleep_secs | sleep_millis | print | println
  | read_line | dbg | test0
  deriving DecidableEq, Repr

mutual
/-- `Value` from `src/value.rs`. -/
inductive Value where
  | number (n : RNum)
  | string (s : String)
  | boolean (b : Bool)
  | callable (c : Callable)
  | nil

/-- `Callable` from `src/value.rs`. -/
inductive Callable where
  | nativeFunction (m_env : Option (EnvNode Value)) (m_arity : Nat) (m_fn : NativeFn)
  | function (m_env : Option (EnvNode Value)) (m_params : List Token)
      (m_arity : Nat) (m_stmt : Stmt)
end

/-- The interpreter's runtime environment instantiates the generic node with
`Value`. -/
abbrev Environment := EnvNode Value

namespace Value

/-- `Value::is_truthy`. -/
def is_truthy : Value → Bool
  | .nil => false
  | .boolean b => b
  | _ => true

/-- `Value::is_equal`; numeric equality uses the absolute tolerance
`0.0000000001` of the source. -/
def is_equal : Value → Value → Bool
  | .nil, .nil => true
  | .number a, .number b => RNum.rlt (RNum.rabs (RNum.sub a b)) RNum.tolerance
  | .string a, .string b => a = b
  | .boolean a, .boolean b => a = b
  | .callable _, .callable _ => false
  | _, _ => false

/-- `Value::is_not_equal`. -/
def is_not_equal (a b : Value) : Bool := !(is_equal a b)

end Value

/-- `Callable::arity`. -/
def Callable.arity : Callable → Nat
  | .nativeFunction _ a _ => a
  | .function _ _ a _ => a

/-! ## Debug and display rendering

The error messages of the evaluator interpolate `{:?}` renderings of tokens,
values and expressions.  The functions below mirror the `Debug` impls of
`src/token.rs`, `src/ast.rs` and `src/value.rs`.  The decimal rendering of an
`f64` is abstracted: integral rationals print as integers, other rationals as
`num/den`; no settled claim depends on the rendering of a non-integral
number. -/

/-- Decimal rendering of a number (abstraction of Rust `f64` `Display`). -/
def numToString (q : RNum) : String :=
  if q.den = 1 then toString q.num else toString q.num ++ "/" ++ toString q.den

/-- Shorthand for building a number value from a natural literal. -/
abbrev rnum := RNum.fromNat

/-- Derived `Debug` rendering of a `TokenType` (the form `Identifier("x")`
produced by `#[derive(Debug)]` in `src/token.rs`). -/
def debugTokenType (t : TokenType) : String :=
  match t with
  | .leftParen => "LeftParen"
  | .rightParen => "RightParen"
  | .leftBrace => "LeftBrace"
  | .rightBrace => "RightBrace"
  | .comma => "Comma"
  | .dot => "Dot"
  | .minus => "Minus"
  | .plus => "Plus"
  | .semicolon => "Semicolon"
  | .slash => "Slash"
  | .star => "Star"
  | .bang => "Bang"
  | .bangEqual => "BangEqual"
  | .equal => "Equal"
  | .equalEqual => "EqualEqual"
  | .greater => "Greater"
  | .greaterEqual => "GreaterEqual"
  | .less => "Less"
  | .lessEqual => "LessEqual"
  | .identifier n => "Identifier(\"" ++ n ++ "\")"
  | .string s => "String(\"" ++ s ++ "\")"
  | .number q => "Number(" ++ numToString q ++ ")"
  | .and => "And"
  | .class' => "Class"
  | .else' => "Else"
  | .false' => "False"
  | .fun' => "Fun"
  | .for' => "For"
  | .if' => "If"
  | .nil => "Nil"
  | .or => "Or"
  | .print => "Print"
  | .ret => "Return"
  | .super => "Super"
  | .this => "This"
  | .true' => "True"
  | .var => "Var"
  | .while' => "While"
  | .error m => "Error(\"" ++ m ++ "\")"
  | .skip => "Skip"
  | .eof => "Eof"

/-- `Debug for Token` from `src/token.rs`: symbolic rendering for fixed
kinds, derived rendering for the payload-carrying catch-all cases. -/
def debugToken (t : Token) : String :=
  match t.get_token_type with
  | .skip => "skip"
  | .eof => "eof"
  | .leftParen => "("
  | .rightParen => ")"
  | .leftBrace => "\x7b"
  | .rightBrace => "\x7d"
  | .comma => ","
  | .plus => "+"
  | .minus => "-"
  | .semicolon => ";"
  | .slash => "/"
  | .star => "*"
  | .bang => "!"
  | .bangEqual => "!="
  | .equalEqual => "=="
  | .greater => ">"
  | .greaterEqual => ">="
  | .less => "<"
  | .lessEqual => "<="
  | .equal => "="
  | .and => "and"
  | .class' => "class"
  | .else' => "else"
  | .false' => "false"
  | .fun' => "fun"
  | .dot => "."
  | .for' => "for"
  | .if' => "if"
  | .nil => "nil"
  | .or => "or"
  | .print => "print"
  | .ret => "return"
  | .super => "super"
  | .this => "this"
  | .true' => "true"
  | .var => "var"
  | .while' => "while"
  | tt => debugTokenType tt

/-- Name under which a token is bound by `define(format!("{}", token), …)`.
Modelled from the spec: the `Display` impl for `Token` is absent from `src/`;
the spec's call semantics ("bind each parameter name") fix it to the
identifier's lexeme for identifier tokens. -/
def tokenName (t : Token) : String :=
  match t.get_token_type with
  | .identifier n => n
  | _ => debugToken t

mutual
/-- `Debug for Expr` from `src/ast.rs`. -/
def debugExpr : Expr → String
  | .binary l tok r => debugExpr l ++ " " ++ debugToken tok ++ " " ++ debugExpr r
  | .grouping e => debugExpr e
  | .literal tok => debugToken tok
  | .unary tok e => debugToken tok ++ " " ++ debugExpr e
  | .variable' tok => debugToken tok
  | .assign tok v => debugToken tok ++ " = " ++ debugExpr v
  | .logical l tok r => debugExpr l ++ " " ++ debugToken tok ++ " " ++ debugExpr r
  | .call callee _ args => debugExpr callee ++ "(" ++ debugExprListSep args ++ ")"
  | .function params body =>
    "fun (" ++ String.intercalate ", " (params.map debugToken) ++ ") \x7b "
      ++ debugStmtList body ++ "\x7d "

/-- Comma-separated argument rendering of `Debug for Expr`'s call case. -/
def debugExprListSep : List Expr → String
  | [] => ""
  | [e] => debugExpr e
  | e :: rest => debugExpr e ++ ", " ++ debugExprListSep rest

/-- `Debug for Stmt` from `src/ast.rs` (the trailing-statements field of
`Var` postdates that impl and is not rendered). -/
def debugStmt : Stmt → String
  | .block stmts => "\x7b " ++ debugStmtList stmts ++ "\x7d "
  | .expression e => debugExpr e ++ "; "
  | .print e => "print " ++ debugExpr e ++ "; "
  | .var name init _ =>
    match init with
    | some e => "let " ++ debugToken name ++ " = " ++ debugExpr e ++ "; "
    | none => "let " ++ debugToken name ++ "; "
  | .while' cond body => "while " ++ debugExpr cond ++ " " ++ debugStmt body ++ " "
  | .if' cond thenB elseB =>
    match elseB with
    | some e =>
      "if " ++ debugExpr cond ++ " " ++ debugStmt thenB ++ " else " ++ debugStmt e ++ " "
    | none => "if " ++ debugExpr cond ++ " " ++ debugStmt thenB ++ " "
  | .function name params body =>
    "fun " ++ debugToken name ++ "("
      ++ String.intercalate ", " (params.map debugToken) ++ ") \x7b "
      ++ debugStmtList body ++ "\x7d "
  | .ret _ value =>
    match value with
    | some e => "return " ++ debugExpr e ++ "; "
    | none => "return; "

/-- Concatenated rendering of a statement list. -/
def debugStmtList : List Stmt → String
  | [] => ""
  | s :: rest => debugStmt s ++ debugStmtList rest
end

mutual
/-- `Debug for Value` from `src/value.rs`. -/
def debugValue : Value → String
  | .number n => numToString n
  | .string s => "\"" ++ s ++ "\""
  | .boolean b => if b then "true" else "false"
  | .callable c => debugCallable c
  | .nil => "nil"

/-- `Debug for Callable` from `src/value.rs`. -/
def debugCallable : Callable → String
  | .nativeFunction _ _ _ => "<native function>"
  | .function _ params _ stmt =>
    "fun (" ++ String.intercalate ", " (params.map debugToken) ++ ") "
      ++ debugStmt stmt
end

/-- Derived `Debug` rendering of a `Vec<Value>`. -/
def debugValues (vs : List Value) : String :=
  "[" ++ String.intercalate ", " (vs.map debugValue) ++ "]"

/-- Derived `Debug` rendering of an `Option<Value>`. -/
def debugOptValue : Option Value → String
  | none => "None"
  | some v => "Some(" ++ debugValue v ++ ")"

/-- `Display for Value` from `src/value.rs`: strings render raw, everything
else via `Debug`. -/
def displayValue : Value → String
  | .string s => s
  | v => debugValue v

/-! ## Evaluator (`src/visitor.rs`, `src/value.rs`)

`ExprEvaluator` holds an environment handle, a result stack and an error
list; `StmtEvaluator` holds an environment handle and a signal list.  The
signal list's element type is the `ErrorValue` referenced (but not defined)
by `src/value.rs`; its two variants are fixed by the `match` in
`Callable::call`.  Shared mutable state (`Rc<RefCell<_>>`) is threaded
explicitly; stdout/stdin effects of native calls are recorded in an
`IoState`. -/

/-- Abstracted process I/O: what was written to stdout, what remains on
stdin (lines, already newline-stripped). -/
structure IoState where
  out : List String
  stdin : List String
  deriving Repr

/-- The signal type `crate::visitor::ErrorValue` used by `Callable::call`:
a return signal carrying a payload, or an error diagnostic. -/
inductive ErrorValue where
  | ret (v : Value)
  | error (message : String)

/-- State of an `ExprEvaluator`: environment, result stack (head = top),
errors, plus the I/O trace. -/
structure EState where
  m_env : Environment
  m_result : List Value
  m_errors : List String
  io : IoState

/-- State of a `StmtEvaluator`: environment, signal list, I/O trace. -/
structure SState where
  m_env : Environment
  m_errors : List ErrorValue
  io : IoState

/-- Outcome of `Callable::call`: `Ok(value)`, `Err(messages)`, or the panic
of the `unreachable!()`/`unwrap()` paths. -/
inductive CallResult where
  | ok (v : Value)
  | err (msgs : List String)
  | crash

def ErrorValue.errMsg : ErrorValue → Option String
  | .error m => some m
  | .ret _ => none

def ErrorValue.retVal : ErrorValue → Option Value
  | .ret v => some v
  | .error _ => none

/-- The result computation at the end of `Callable::call` (`src/value.rs`):
empty signal list means `Nil`; a trailing return signal yields its payload
(and discards everything before it); otherwise the messages are propagated,
with a non-trailing return signal hitting `unreachable!()`. -/
def Callable.resultFromSignals : List ErrorValue → CallResult
  | [] => .ok .nil
  | sigs@(_ :: _) =>
    match sigs.getLast? with
    | some (.ret v) => .ok v
    | _ =>
      if sigs.any (fun s => (s.retVal).isSome) then .crash
      else .err (sigs.filterMap ErrorValue.errMsg)

/-- Behaviour of the native functions registered by `Interpreter::new`
(`src/interpreter.rs`).  Wall-clock time is abstracted to `0`; sleeping has
no modelled effect; `dbg!`'s stderr line is omitted. -/
def nativeApply (fn : NativeFn) (args : List Value) (io : IoState) :
    Value × IoState :=
  match fn with
  | .clock => (.number 0, io)
  | .sleep_secs => (.nil, io)
  | .sleep_millis => (.nil, io)
  | .print =>
    (.nil, { io with out := io.out ++ [displayValue (args.headD .nil)] })
  | .println =>
    (.nil, { io with out := io.out ++ [displayValue (args.headD .nil) ++ "\n"] })
  | .read_line =>
    (.string (io.stdin.headD ""), { io with stdin := io.stdin.tail })
  | .dbg =>
    (.nil, { io with out := io.out ++ ["value = " ++ debugValue (args.headD .nil) ++ "\n"] })
  | .test0 =>
    (.nil, { io with out := io.out ++ ["testing123 from native print function\n"] })

/-- Error messages of the joined form `err.join("\n")` used whenever a
sub-visitor's error list is folded into its parent. -/
def joinMsgs (msgs : List String) : String := String.intercalate "\n" msgs

/-- Push a value on an expression evaluator's result stack. -/
def EState.push (s : EState) (v : Value) : EState :=
  { s with m_result := v :: s.m_result }

/-- Append an error to an expression evaluator's error list. -/
def EState.addErr (s : EState) (m : String) : EState :=
  { s with m_errors := s.m_errors ++ [m] }

/-- Sentinel diagnostic produced when the modelling fuel runs out. -/
def fuelMsg : String := "evaluation fuel exhausted"

/-- First return signal of a signal list. -/
def firstRet (sigs : List ErrorValue) : Option Value :=
  (sigs.filterMap ErrorValue.retVal).head?

/-- Error messages of a signal list. -/
def sigMsgs (sigs : List ErrorValue) : List String :=
  sigs.filterMap ErrorValue.errMsg

/-- Join a child visitor's signals into its parent's signal list, the way
`visit_block` pushes `err.join("\n")` for the error part; the return part is
forwarded unchanged.  Modelled from the spec: the return-signal plumbing of
`StmtEvaluator` is absent from `src/visitor.rs` and is fixed by §4.3 of the
spec ("errors accumulate … except when the error is a Return control
signal") and by the `ErrorValue` consumption in `Callable::call`. -/
def mergeSignals (parent : List ErrorValue) (child : List ErrorValue) :
    List ErrorValue :=
  let withErrs :=
    if sigMsgs child = [] then parent else parent ++ [.error (joinMsgs (sigMsgs child))]
  match firstRet child with
  | some v => withErrs ++ [.ret v]
  | none => withErrs

/-- Parent environment of a block scope, recovered when the block exits
(the Rust child `Rc` is dropped and the shared parent retains mutations). -/
def exitScope (child fallback : Environment) : Environment :=
  (child.parent).getD fallback

mutual

/-- `impl ExprVisitor for ExprEvaluator` (`src/visitor.rs`), fueled. -/
def evalExpr : Nat → Expr → EState → EState
  | 0, _, s => s.addErr fuelMsg
  | fuel + 1, e, s =>
    match e with
    | .binary l tok r =>
      let s1 := evalExpr fuel l s
      let s2 := evalExpr fuel r s1
      if s2.m_errors ≠ [] then s2
      else
        match s2.m_result with
        | .number rn :: .number ln :: rest =>
          let s3 := { s2 with m_result := rest }
          match tok.get_token_type with
          | .minus => s3.push (.number (RNum.sub ln rn))
          | .plus => s3.push (.number (RNum.add ln rn))
          | .slash => s3.push (.number (RNum.div ln rn))
          | .star => s3.push (.number (RNum.mul ln rn))
          | .greater => s3.push (.boolean (RNum.rlt rn ln))
          | .greaterEqual => s3.push (.boolean (RNum.rle rn ln))
          | .less => s3.push (.boolean (RNum.rlt ln rn))
          | .lessEqual => s3.push (.boolean (RNum.rle ln rn))
          | .bangEqual => s3.push (.boolean (!(RNum.req ln rn)))
          | .equalEqual => s3.push (.boolean (RNum.req ln rn))
          | tt =>
            (s3.addErr ("Invalid binary operator => " ++ debugTokenType tt)).push .nil
        | .string rs :: .string ls :: rest =>
          let s3 := { s2 with m_result := rest }
          match tok.get_token_type with
          | .plus => s3.push (.string (ls ++ rs))
          | .greater => s3.push (.boolean (decide (rs < ls)))
          | .greaterEqual => s3.push (.boolean (decide (¬ ls < rs)))
          | .less => s3.push (.boolean (decide (ls < rs)))
          | .lessEqual => s3.push (.boolean (decide (¬ rs < ls)))
          | .bangEqual => s3.push (.boolean (decide (ls ≠ rs)))
          | .equalEqual => s3.push (.boolean (decide (ls = rs)))
          | tt =>
            (s3.addErr ("Invalid binary operator => " ++ debugTokenType tt)).push .nil
        | rv :: lv :: rest =>
          { s2 with m_result := rest }.addErr
            ("Invalid binary expression => " ++ debugValue lv ++ " "
              ++ debugToken tok ++ " " ++ debugValue rv)
        | other =>
          { s2 with m_result := [] }.addErr
            ("Invalid binary expression => " ++ debugOptValue (other.get? 1) ++ " "
              ++ debugToken tok ++ " " ++ debugOptValue other.head?)
    | .grouping inner => evalExpr fuel inner s
    | .literal tok =>
      match tok.get_token_type with
      | .number n => s.push (.number n)
      | .string str => s.push (.string str)
      | .true' => s.push (.boolean true)
      | .false' => s.push (.boolean false)
      | .nil => s.push .nil
      | tt =>
        (s.addErr ("Invalid literal expression => " ++ debugTokenType tt)).push .nil
    | .unary tok inner =>
      let s1 := evalExpr fuel inner s
      if s1.m_errors ≠ [] then s1
      else
        match s1.m_result with
        | .number n :: rest =>
          let s2 := { s1 with m_result := rest }
          match tok.get_token_type with
          | .minus => s2.push (.number (RNum.neg n))
          | .bang =>
            s2.push (.boolean (!(Value.is_equal (.number n) (.number (rnum 0)))))
          | tt =>
            (s2.addErr ("Invalid unary operator => " ++ debugTokenType tt)).push .nil
        | .boolean b :: rest =>
          let s2 := { s1 with m_result := rest }
          match tok.get_token_type with
          | .bang => s2.push (.boolean (!b))
          | tt =>
            (s2.addErr ("Invalid unary operator => " ++ debugTokenType tt)).push .nil
        | v :: rest =>
          { s1 with m_result := rest }.addErr
            ("Invalid unary expression => " ++ debugToken tok ++ " " ++ debugValue v)
        | [] =>
          s1.addErr ("Invalid unary expression => " ++ debugToken tok ++ " "
            ++ debugValues [])
    | .variable' tok =>
      match tok.get_token_type with
      | .identifier id =>
        match id with
        | "true" => s.push (.boolean true)
        | "false" => s.push (.boolean false)
        | "nil" => s.push .nil
        | _ =>
          match s.m_env.get id with
          | some v => s.push v
          | none =>
            (s.addErr ("Undefined variable => " ++ debugToken tok)).push .nil
      | tt =>
        (s.addErr ("Invalid variable expression => " ++ debugTokenType tt)).push .nil
    | .assign tok rhs =>
      let s1 := evalExpr fuel rhs s
      if s1.m_errors ≠ [] then s1
      else
        match s1.m_result with
        | v :: rest =>
          match tok.get_token_type with
          | .identifier id =>
            match s1.m_env.assign id v with
            | .ok env' => { s1 with m_env := env', m_result := v :: rest }
            | .error msg =>
              { s1 with m_result := v :: rest, m_errors := s1.m_errors ++ [msg] }
          | tt =>
            { s1 with m_result := rest }.addErr
              ("Invalid assign expression => " ++ debugTokenType tt)
        | [] =>
          s1.addErr ("Invalid assign expression => " ++ debugToken tok ++ " "
            ++ debugValues [])
    | .logical l tok r =>
      let s1 := evalExpr fuel l s
      if s1.m_errors ≠ [] then s1
      else
        match s1.m_result with
        | .boolean lb :: rest =>
          let s2 := { s1 with m_result := rest }
          if tok.get_token_type = .or ∧ lb then s2.push (.boolean true)
          else if tok.get_token_type = .and ∧ !lb then s2.push (.boolean false)
          else
            let s3 := evalExpr fuel r s2
            if s3.m_errors ≠ [] then s3
            else
              match s3.m_result with
              | .boolean rb :: rest2 =>
                let s4 := { s3 with m_result := rest2 }
                if tok.get_token_type = .or then s4.push (.boolean rb)
                else if tok.get_token_type = .and then s4.push (.boolean rb)
                else s4
              | v :: rest2 =>
                { s3 with m_result := rest2 }.addErr
                  ("Invalid logical expression => " ++ debugToken tok ++ " "
                    ++ debugValue v)
              | [] =>
                s3.addErr ("Invalid logical expression => " ++ debugToken tok
                  ++ " " ++ debugValues [])
        | v :: rest =>
          { s1 with m_result := rest }.addErr
            ("Invalid logical expression => " ++ debugToken tok ++ " " ++ debugValue v)
        | [] =>
          s1.addErr ("Invalid logical expression => " ++ debugToken tok ++ " "
            ++ debugValues [])
    | .call callee _paren args =>
      let s1 := evalExpr fuel callee s
      if s1.m_errors ≠ [] then s1
      else
        match s1.m_result with
        | calleeV :: rest =>
          let s2 := evalArgs fuel args { s1 with m_result := rest }
          if s2.m_errors ≠ [] then s2
          else
            let argVals := (s2.m_result.take args.length).reverse
            let s3 := { s2 with m_result := s2.m_result.drop args.length }
            match calleeV with
            | .callable c =>
              if c.arity ≠ args.length then
                s3.addErr ("Invalid call expression => " ++ debugCallable c
                  ++ debugValues argVals)
              else
                let (res, io') := callableCall fuel c (argVals.map fun v => (none, v)) s3.io
                match res with
                | .ok v => { s3 with io := io' }.push v
                | .err msgs => { s3 with io := io' }.addErr (joinMsgs msgs)
                | .crash => { s3 with io := io' }.addErr "panicked in Callable::call"
            | other =>
              s3.addErr ("Invalid call expression => " ++ debugValue other)
        | [] =>
          s1.addErr ("Invalid call expression => " ++ debugExpr callee)
    | .function params body =>
      -- the anonymous-function expression built by `Parser::primary`; its
      -- evaluation is absent from `src/visitor.rs` and is modelled from the
      -- spec's `Function` statement semantics (capture the current
      -- environment)
      s.push (.callable (.function (some s.m_env) params params.length (.block body)))

/-- The left-to-right argument loop of `visit_call`, stopping at the first
argument whose evaluation raises errors. -/
def evalArgs : Nat → List Expr → EState → EState
  | 0, _, s => s.addErr fuelMsg
  | _ + 1, [], s => s
  | fuel + 1, a :: rest, s =>
    let s1 := evalExpr fuel a s
    if s1.m_errors ≠ [] then s1 else evalArgs fuel rest s1

/-- `Callable::call` (`src/value.rs`), fueled.  The environment captured by
the callable is a snapshot; its mutation during the call is internal to the
call in this model. -/
def callableCall : Nat → Callable → List (Option String × Value) → IoState →
    CallResult × IoState
  | 0, _, _, io => (.err [fuelMsg], io)
  | fuel + 1, c, arguments, io =>
    match c with
    | .nativeFunction _ _ fn =>
      let (v, io') := nativeApply fn (arguments.map Prod.snd) io
      (.ok v, io')
    | .function envOpt params _ stmt =>
      match envOpt with
      | none => (.crash, io)
      | some closure =>
        let inner := (params.zip arguments).foldl
          (fun acc pv => acc.define (tokenName pv.1) pv.2.2)
          (EnvNode.new_scope closure)
        let r := evalStmt fuel stmt { m_env := inner, m_errors := [], io := io }
        (Callable.resultFromSignals r.m_errors, r.io)

/-- `impl StmtVisitor for StmtEvaluator` (`src/visitor.rs`), fueled.  The
`Return` case and the return-signal plumbing are modelled from the spec
(§4.3) as noted at `mergeSignals`. -/
def evalStmt : Nat → Stmt → SState → SState
  | 0, _, s => { s with m_errors := s.m_errors ++ [.error fuelMsg] }
  | fuel + 1, stmt, s =>
    match stmt with
    | .block stmts =>
      let (env', errs', io') :=
        runStmts fuel stmts (EnvNode.new_scope s.m_env) s.m_errors s.io
      { m_env := exitScope env' s.m_env, m_errors := errs', io := io' }
    | .expression e =>
      let r := evalExpr fuel e { m_env := s.m_env, m_result := [], m_errors := [], io := s.io }
      if r.m_errors = [] then { s with m_env := r.m_env, io := r.io }
      else
        { m_env := r.m_env, io := r.io
          m_errors := s.m_errors ++ [.error (joinMsgs r.m_errors)] }
    | .print e =>
      let r := evalExpr fuel e { m_env := s.m_env, m_result := [], m_errors := [], io := s.io }
      if r.m_errors = [] then
        { m_env := r.m_env
          m_errors := s.m_errors
          io := { r.io with out := r.io.out ++ [displayValue (r.m_result.headD .nil) ++ "\n"] } }
      else
        { m_env := r.m_env, io := r.io
          m_errors := s.m_errors ++ [.error (joinMsgs r.m_errors)] }
    | .var name init children =>
      let r :=
        match init with
        | some e => evalExpr fuel e { m_env := s.m_env, m_result := [], m_errors := [], io := s.io }
        | none => { m_env := s.m_env, m_result := [], m_errors := [], io := s.io }
      let afterDefine : SState :=
        if r.m_errors = [] then
          match name.get_token_type with
          | .identifier id =>
            { m_env := r.m_env.define id (r.m_result.headD .nil)
              m_errors := s.m_errors, io := r.io }
          | _ => { m_env := r.m_env, m_errors := s.m_errors, io := r.io }
        else
          { m_env := r.m_env, io := r.io
            m_errors := s.m_errors ++ [.error (joinMsgs r.m_errors)] }
      -- Modelled from the spec: the trailing statements collected into the
      -- `Var` node by `Parser::declaration` have no evaluator in `src/`;
      -- they are the remainder of the enclosing declaration sequence and
      -- evaluate in order in the current scope.
      let (env', errs', io') :=
        runStmts fuel children afterDefine.m_env afterDefine.m_errors afterDefine.io
      { m_env := env', m_errors := errs', io := io' }
    | .while' cond body => whileLoop fuel cond body s
    | .if' cond thenB elseB =>
      let r := evalExpr fuel cond { m_env := s.m_env, m_result := [], m_errors := [], io := s.io }
      if r.m_errors = [] then
        let inner := EnvNode.new_scope r.m_env
        if (r.m_result.headD .nil).is_truthy then
          let b := evalStmt fuel thenB { m_env := inner, m_errors := [], io := r.io }
          { m_env := exitScope b.m_env r.m_env
            m_errors := mergeSignals s.m_errors b.m_errors, io := b.io }
        else
          match elseB with
          | some eb =>
            let b := evalStmt fuel eb { m_env := inner, m_errors := [], io := r.io }
            { m_env := exitScope b.m_env r.m_env
              m_errors := mergeSignals s.m_errors b.m_errors, io := b.io }
          | none => { m_env := r.m_env, m_errors := s.m_errors, io := r.io }
      else
        { m_env := r.m_env, io := r.io
          m_errors := s.m_errors ++ [.error (joinMsgs r.m_errors)] }
    | .function name params body =>
      let callable : Value :=
        .callable (.function (some s.m_env) params params.length (.block body))
      { s with m_env := s.m_env.define (tokenName name) callable }
    | .ret _keyword value =>
      -- Modelled from the spec (§4.3): evaluate the optional value (`Nil` if
      -- absent) and raise a return signal; `visit_return` is absent from
      -- `src/visitor.rs`.
      let r :=
        match value with
        | some e => evalExpr fuel e { m_env := s.m_env, m_result := [], m_errors := [], io := s.io }
        | none => { m_env := s.m_env, m_result := [], m_errors := [], io := s.io }
      if r.m_errors = [] then
        { m_env := r.m_env, m_errors := s.m_errors ++ [.ret (r.m_result.headD .nil)]
          io := r.io }
      else
        { m_env := r.m_env, io := r.io
          m_errors := s.m_errors ++ [.error (joinMsgs r.m_errors)] }

/-- The statement loop of `visit_block` (and of the modelled trailing
statements of `Var`): each statement runs in a fresh `StmtEvaluator` sharing
the scope, its signals joined into the accumulator; a return signal aborts
the remaining statements (spec §4.3). -/
def runStmts : Nat → List Stmt → Environment → List ErrorValue → IoState →
    Environment × List ErrorValue × IoState
  | 0, _, env, errs, io => (env, errs ++ [.error fuelMsg], io)
  | _ + 1, [], env, errs, io => (env, errs, io)
  | fuel + 1, st :: rest, env, errs, io =>
    let r := evalStmt fuel st { m_env := env, m_errors := [], io := io }
    let errs' := mergeSignals errs r.m_errors
    match firstRet r.m_errors with
    | some _ => (r.m_env, errs', r.io)
    | none => runStmts fuel rest r.m_env errs' r.io

/-- `visit_while` (`src/visitor.rs`): re-evaluate the condition with a fresh
expression evaluator; on truthy, run the body in a fresh per-iteration child
scope; a condition error ends the loop after recording it; a return signal
from the body propagates and ends the loop (spec §4.3). -/
def whileLoop : Nat → Expr → Stmt → SState → SState
  | 0, _, _, s => { s with m_errors := s.m_errors ++ [.error fuelMsg] }
  | fuel + 1, cond, body, s =>
    let r := evalExpr fuel cond { m_env := s.m_env, m_result := [], m_errors := [], io := s.io }
    if r.m_errors ≠ [] then
      { m_env := r.m_env, io := r.io
        m_errors := s.m_errors ++ [.error (joinMsgs r.m_errors)] }
    else if !(r.m_result.headD .nil).is_truthy then
      { m_env := r.m_env, m_errors := s.m_errors, io := r.io }
    else
      let inner := EnvNode.new_scope r.m_env
      let b := evalStmt fuel body { m_env := inner, m_errors := [], io := r.io }
      let errs' := mergeSignals s.m_errors b.m_errors
      let env' := exitScope b.m_env r.m_env
      match firstRet b.m_errors with
      | some _ => { m_env := env', m_errors := errs', io := b.io }
      | none => whileLoop fuel cond body { m_env := env', m_errors := errs', io := b.io }

end

/-! ## Parser (`src/parser.rs`)

A faithful, fueled transcription of the recursive-descent parser.  The
parser state mirrors the struct fields (`m_token_iter` as the unconsumed
token list, `m_current`, `m_previous`, `m_errors`); every rule returns the
new state plus `some result` for Rust `Ok` or `none` for Rust `Err` (every
`Err` site pushes its diagnostic first, as the source does).  `unwrap()`
calls on `None` — unreachable on lexer-produced token streams — are
modelled by a distinguished panic diagnostic. -/

structure PState where
  m_tokens : List Token
  m_current : Option Token
  m_previous : Option Token
  m_errors : List String

def PState.pushErr (s : PState) (m : String) : PState :=
  { s with m_errors := s.m_errors ++ [m] }

/-- Sentinel diagnostic for parser fuel exhaustion. -/
def pFuelMsg : String := "parsing fuel exhausted"

/-- Sentinel diagnostic modelling a Rust panic in the parser. -/
def panicMsg : String := "panicked in Parser"

/-- `Parser::peek_next`. -/
def PState.peek_next (s : PState) : Option Token := s.m_tokens.head?

/-- `Parser::take_next`. -/
def PState.take_next (s : PState) : PState × Option Token :=
  match s.m_tokens with
  | [] => ({ s with m_previous := s.m_current, m_current := none }, none)
  | t :: rest =>
    ({ s with m_tokens := rest, m_previous := s.m_current, m_current := some t }, some t)

/-- `match_token!`: does the peeked token match one of the given kinds? -/
def PState.peekIs (s : PState) (p : TokenType → Bool) : Bool :=
  match s.m_tokens.head? with
  | some t => p t.get_token_type
  | none => false

/-- `multi_match_token!`: kind test on the i-th upcoming token. -/
def PState.peekNth (s : PState) (i : Nat) (p : TokenType → Bool) : Bool :=
  match s.m_tokens.get? i with
  | some t => p t.get_token_type
  | none => false

def isIdentifierTT : TokenType → Bool
  | .identifier _ => true
  | _ => false

def isLiteralTT : TokenType → Bool
  | .false' | .true' | .string _ | .number _ | .nil => true
  | _ => false

/-- The `=> line L | column C` suffix shared by the parser diagnostics. -/
def lineColMsg (txt : String) (line col : Nat) : String :=
  txt ++ "\n    => line " ++ toString line ++ " | column " ++ toString col

/-- Push a diagnostic anchored at a token, with the source's occasional
`saturating_sub(1)` on the line and `+1` (or not) on the column. -/
def errAtTok (s : PState) (txt : String) (t : Token) (subLine : Bool) (addCol : Nat) :
    PState :=
  s.pushErr (lineColMsg txt (if subLine then t.m_line - 1 else t.m_line)
    (t.m_col_start + addCol))

/-- As `errAtTok` for an optional token, panicking (as `unwrap()` does) when
it is absent. -/
def errAtOpt (s : PState) (txt : String) (t? : Option Token) (subLine : Bool)
    (addCol : Nat) : PState :=
  match t? with
  | some t => errAtTok s txt t subLine addCol
  | none => s.pushErr panicMsg

/-- `Parser::sync`: skip tokens until just past a `;` or just before a
`return`. -/
def sync : Nat → PState → PState
  | 0, s => s.pushErr pFuelMsg
  | fuel + 1, s =>
    let (s1, t?) := s.take_next
    match t? with
    | none => s1
    | some t =>
      if t.get_token_type = .semicolon then s1
      else if s1.peekIs (· == .ret) then s1
      else sync fuel s1

mutual

/-- `Parser::primary`. -/
def primary : Nat → PState → PState × Option Expr
  | 0, s => (s.pushErr pFuelMsg, none)
  | fuel + 1, s =>
    if s.peekNth 0 (· == .fun') ∧ s.peekNth 1 (· == .leftParen) then
      let (s1, _) := s.take_next
      let (s2, _) := s1.take_next
      match lambdaParams fuel s2 [] with
      | (s3, none) => (s3, none)
      | (s3, some parameters) =>
        if s3.peekIs (· == .rightParen) then
          let (s4, _) := s3.take_next
          if s4.peekIs (· == .leftBrace) then
            match statement fuel s4 with
            | (s5, none) => (s5, none)
            | (s5, some body) =>
              match body with
              | .block stmts => (s5, some (.function parameters stmts))
              | _ =>
                (errAtOpt s5 "Expected block after function declaration"
                  s5.m_previous false 1, none)
          else
            (errAtOpt s4 "Expected '\x7b' after function declaration"
              s4.m_previous false 1, none)
        else
          (errAtOpt s3 "Expected ')' after function parameters" s3.m_previous false 1,
            none)
    else if s.peekIs isLiteralTT then
      let (s1, t?) := s.take_next
      match t? with
      | some t => (s1, some (.literal t))
      | none => (s1.pushErr panicMsg, none)
    else if s.peekIs isIdentifierTT then
      let (s1, t?) := s.take_next
      match t? with
      | some t => (s1, some (.variable' t))
      | none => (s1.pushErr panicMsg, none)
    else if s.peekIs (· == .leftParen) then
      let (s1, _) := s.take_next
      match expression fuel s1 with
      | (s2, none) => (s2, none)
      | (s2, some e) =>
        match groupSkip fuel s2 with
        | (s3, none) => (s3, none)
        | (s3, some _) =>
          let (s4, _) := s3.take_next
          (s4, some (.grouping e))
    else
      match s.m_previous with
      | some t =>
        (errAtTok s "Invalid operands, expected expression" t false 1, none)
      | none =>
        match s.m_current with
        | some t =>
          (errAtTok s "Invalid operands, expected expression" t false 1, none)
        | none => (s.pushErr "Invalid operands, expected expression", none)

/-- The parameter loop of the anonymous-function branch of
`Parser::primary` (any token is accepted as a parameter). -/
def lambdaParams : Nat → PState → List Token → PState × Option (List Token)
  | 0, s, _ => (s.pushErr pFuelMsg, none)
  | fuel + 1, s, acc =>
    if acc.isEmpty ∧ s.peekIs (· == .rightParen) then (s, some acc)
    else if acc.length ≥ 255 then
      (errAtOpt s "Cannot have more than 255 parameters" s.m_current false 1, none)
    else
      let (s1, t?) := s.take_next
      match t? with
      | none => (s1.pushErr panicMsg, none)
      | some t =>
        if s1.peekIs (· == .comma) then
          let (s2, _) := s1.take_next
          lambdaParams fuel s2 (acc ++ [t])
        else (s1, some (acc ++ [t]))

/-- The token-skipping loop in the grouping branch of `Parser::primary`
(`while !match_token(RightParen) { take_next or error }`). -/
def groupSkip : Nat → PState → PState × Option Unit
  | 0, s => (s.pushErr pFuelMsg, none)
  | fuel + 1, s =>
    if s.peekIs (· == .rightParen) then (s, some ())
    else
      let (s1, t?) := s.take_next
      match t? with
      | none =>
        (errAtOpt s1 "Unterminated grouping, expected ')'" s1.m_previous false 1, none)
      | some _ => groupSkip fuel s1

/-- `Parser::finish_call`. -/
def finish_call : Nat → PState → Expr → PState × Option Expr
  | 0, s, _ => (s.pushErr pFuelMsg, none)
  | fuel + 1, s, callee =>
    let argsRes :=
      if s.peekIs (· == .rightParen) then (s, some ([] : List Expr))
      else finishArgs fuel s []
    match argsRes with
    | (s1, none) => (s1, none)
    | (s1, some arguments) =>
      let (s2, t?) := s1.take_next
      match t? with
      | some t =>
        if t.get_token_type = .rightParen then
          (s2, some (.call callee t arguments))
        else
          (errAtTok s2 "Expected ')' after arguments" t true 1, none)
      | none =>
        (errAtOpt s2 "Expected ')' after arguments" s2.m_previous true 1, none)

/-- The argument loop of `Parser::finish_call`. -/
def finishArgs : Nat → PState → List Expr → PState × Option (List Expr)
  | 0, s, _ => (s.pushErr pFuelMsg, none)
  | fuel + 1, s, acc =>
    if acc.length ≥ 255 then
      (errAtOpt s "Cannot have more than 255 arguments" s.m_previous false 1, none)
    else
      match expression fuel s with
      | (s1, none) => (s1, none)
      | (s1, some e) =>
        if s1.peekIs (· == .comma) then
          let (s2, _) := s1.take_next
          finishArgs fuel s2 (acc ++ [e])
        else (s1, some (acc ++ [e]))

/-- `Parser::call`. -/
def call : Nat → PState → PState × Option Expr
  | 0, s => (s.pushErr pFuelMsg, none)
  | fuel + 1, s =>
    match primary fuel s with
    | (s1, none) => (s1, none)
    | (s1, some e) => callLoop fuel s1 e

/-- The chained-invocation loop of `Parser::call`. -/
def callLoop : Nat → PState → Expr → PState × Option Expr
  | 0, s, _ => (s.pushErr pFuelMsg, none)
  | fuel + 1, s, e =>
    if s.peekIs (· == .leftParen) then
      let (s1, _) := s.take_next
      match finish_call fuel s1 e with
      | (s2, none) => (s2, none)
      | (s2, some e') => callLoop fuel s2 e'
    else (s, some e)

/-- `Parser::unary`. -/
def unary : Nat → PState → PState × Option Expr
  | 0, s => (s.pushErr pFuelMsg, none)
  | fuel + 1, s =>
    if s.peekIs (fun tt => tt == .bang || tt == .minus) then
      let (s1, opOpt) := s.take_next
      match opOpt with
      | none => (s1.pushErr panicMsg, none)
      | some op =>
        match unary fuel s1 with
        | (s2, none) => (s2, none)
        | (s2, some right) => (s2, some (.unary op right))
    else call fuel s

/-- `Parser::factor` and its operator loop. -/
def factor : Nat → PState → PState × Option Expr
  | 0, s => (s.pushErr pFuelMsg, none)
  | fuel + 1, s =>
    match unary fuel s with
    | (s1, none) => (s1, none)
    | (s1, some e) => factorLoop fuel s1 e

def factorLoop : Nat → PState → Expr → PState × Option Expr
  | 0, s, _ => (s.pushErr pFuelMsg, none)
  | fuel + 1, s, e =>
    if s.peekIs (fun tt => tt == .slash || tt == .star) then
      let (s1, opOpt) := s.take_next
      match opOpt with
      | none => (s1.pushErr panicMsg, none)
      | some op =>
        match unary fuel s1 with
        | (s2, none) => (s2, none)
        | (s2, some right) => factorLoop fuel s2 (.binary e op right)
    else (s, some e)

/-- `Parser::term` and its operator loop. -/
def term : Nat → PState → PState × Option Expr
  | 0, s => (s.pushErr pFuelMsg, none)
  | fuel + 1, s =>
    match factor fuel s with
    | (s1, none) => (s1, none)
    | (s1, some e) => termLoop fuel s1 e

def termLoop : Nat → PState → Expr → PState × Option Expr
  | 0, s, _ => (s.pushErr pFuelMsg, none)
  | fuel + 1, s, e =>
    if s.peekIs (fun tt => tt == .minus || tt == .plus) then
      let (s1, opOpt) := s.take_next
      match opOpt with
      | none => (s1.pushErr panicMsg, none)
      | some op =>
        match factor fuel s1 with
        | (s2, none) => (s2, none)
        | (s2, some right) => termLoop fuel s2 (.binary e op right)
    else (s, some e)

/-- `Parser::comparison` and its operator loop. -/
def comparison : Nat → PState → PState × Option Expr
  | 0, s => (s.pushErr pFuelMsg, none)
  | fuel + 1, s =>
    match term fuel s with
    | (s1, none) => (s1, none)
    | (s1, some e) => comparisonLoop fuel s1 e

def comparisonLoop : Nat → PState → Expr → PState × Option Expr
  | 0, s, _ => (s.pushErr pFuelMsg, none)
  | fuel + 1, s, e =>
    if s.peekIs (fun tt =>
        tt == .greater || tt == .greaterEqual || tt == .less || tt == .lessEqual) then
      let (s1, opOpt) := s.take_next
      match opOpt with
      | none => (s1.pushErr panicMsg, none)
      | some op =>
        match term fuel s1 with
        | (s2, none) => (s2, none)
        | (s2, some right) => comparisonLoop fuel s2 (.binary e op right)
    else (s, some e)

/-- `Parser::equality` and its operator loop. -/
def equality : Nat → PState → PState × Option Expr
  | 0, s => (s.pushErr pFuelMsg, none)
  | fuel + 1, s =>
    match comparison fuel s with
    | (s1, none) => (s1, none)
    | (s1, some e) => equalityLoop fuel s1 e

def equalityLoop : Nat → PState → Expr → PState × Option Expr
  | 0, s, _ => (s.pushErr pFuelMsg, none)
  | fuel + 1, s, e =>
    if s.peekIs (fun tt => tt == .bangEqual || tt == .equalEqual) then
      let (s1, opOpt) := s.take_next
      match opOpt with
      | none => (s1.pushErr panicMsg, none)
      | some op =>
        match comparison fuel s1 with
        | (s2, none) => (s2, none)
        | (s2, some right) => equalityLoop fuel s2 (.binary e op right)
    else (s, some e)

/-- `Parser::and` and its operator loop. -/
def and' : Nat → PState → PState × Option Expr
  | 0, s => (s.pushErr pFuelMsg, none)
  | fuel + 1, s =>
    match equality fuel s with
    | (s1, none) => (s1, none)
    | (s1, some e) => andLoop fuel s1 e

def andLoop : Nat → PState → Expr → PState × Option Expr
  | 0, s, _ => (s.pushErr pFuelMsg, none)
  | fuel + 1, s, e =>
    if s.peekIs (· == .and) then
      let (s1, opOpt) := s.take_next
      match opOpt with
      | none => (s1.pushErr panicMsg, none)
      | some op =>
        match equality fuel s1 with
        | (s2, none) => (s2, none)
        | (s2, some right) => andLoop fuel s2 (.logical e op right)
    else (s, some e)

/-- `Parser::or` and its operator loop. -/
def or' : Nat → PState → PState × Option Expr
  | 0, s => (s.pushErr pFuelMsg, none)
  | fuel + 1, s =>
    match and' fuel s with
    | (s1, none) => (s1, none)
    | (s1, some e) => orLoop fuel s1 e

def orLoop : Nat → PState → Expr → PState × Option Expr
  | 0, s, _ => (s.pushErr pFuelMsg, none)
  | fuel + 1, s, e =>
    if s.peekIs (· == .or) then
      let (s1, opOpt) := s.take_next
      match opOpt with
      | none => (s1.pushErr panicMsg, none)
      | some op =>
        match and' fuel s1 with
        | (s2, none) => (s2, none)
        | (s2, some right) => orLoop fuel s2 (.logical e op right)
    else (s, some e)

/-- `Parser::assignment`. -/
def assignment : Nat → PState → PState × Option Expr
  | 0, s => (s.pushErr pFuelMsg, none)
  | fuel + 1, s =>
    match or' fuel s with
    | (s1, none) => (s1, none)
    | (s1, some e) =>
      if s1.peekIs (· == .equal) then
        let (s2, eqOpt) := s1.take_next
        match eqOpt with
        | none => (s2.pushErr panicMsg, none)
        | some equals =>
          match assignment fuel s2 with
          | (s3, none) => (s3, none)
          | (s3, some value) =>
            match e with
            | .variable' tok => (s3, some (.assign tok value))
            | _ =>
              (errAtTok s3 "Invalid assignment target" equals false 1, none)
      else (s1, some e)

/-- `Parser::expression`. -/
def expression : Nat → PState → PState × Option Expr
  | 0, s => (s.pushErr pFuelMsg, none)
  | fuel + 1, s => assignment fuel s

/-- `Parser::statement`. -/
def statement : Nat → PState → PState × Option Stmt
  | 0, s => (s.pushErr pFuelMsg, none)
  | fuel + 1, s =>
    if s.peekIs (· == .leftBrace) then
      let (s1, _) := s.take_next
      match blockStmts fuel s1 [] with
      | (s2, none) => (s2, none)
      | (s2, some statements) =>
        let (s3, _) := s2.take_next
        (s3, some (.block statements))
    else if s.peekIs (· == .if') then
      let (s1, _) := s.take_next
      if s1.peekIs (· == .leftParen) then
        let (s2, _) := s1.take_next
        match expression fuel s2 with
        | (s3, none) => (s3, none)
        | (s3, some condition) =>
          if s3.peekIs (· == .rightParen) then
            let (s4, _) := s3.take_next
            match statement fuel s4 with
            | (s5, none) => (s5, none)
            | (s5, some then_branch) =>
              if s5.peekIs (· == .else') then
                let (s6, _) := s5.take_next
                match statement fuel s6 with
                | (s7, none) => (s7, none)
                | (s7, some else_branch) =>
                  (s7, some (.if' condition then_branch (some else_branch)))
              else (s5, some (.if' condition then_branch none))
          else
            (errAtOpt s3 "Expected ')' after if condition" s3.m_previous false 1, none)
      else
        (errAtOpt s1 "Expected '(' after 'if'" s1.m_previous false 1, none)
    else if s.peekIs (· == .while') then
      let (s1, _) := s.take_next
      if s1.peekIs (· == .leftParen) then
        let (s2, _) := s1.take_next
        match expression fuel s2 with
        | (s3, none) => (s3, none)
        | (s3, some condition) =>
          if s3.peekIs (· == .rightParen) then
            let (s4, _) := s3.take_next
            match statement fuel s4 with
            | (s5, none) => (s5, none)
            | (s5, some body) => (s5, some (.while' condition body))
          else
            (errAtOpt s3 "Expected ')' after while condition" s3.m_previous false 1,
              none)
      else
        (errAtOpt s1 "Expected '(' after 'while'" s1.m_previous false 1, none)
    else if s.peekIs (· == .for') then
      let (s1, _) := s.take_next
      if s1.peekIs (· == .leftParen) then
        let (s2, _) := s1.take_next
        forBody fuel s2
      else
        (errAtOpt s1 "Expected '(' after 'for'" s1.m_previous false 1, none)
    else
      match expression fuel s with
      | (s1, none) => (s1, none)
      | (s1, some e) =>
        let (s2, t?) := s1.take_next
        match t? with
        | some t =>
          if t.get_token_type = .semicolon then (s2, some (.expression e))
          else
            (errAtTok s2 "Expected ';' after expression" t true 1, none)
        | none =>
          (errAtOpt s2 "Expected ';' after expression" s2.m_previous true 1, none)

/-- The body of the `for` branch of `Parser::statement`, entered with `for`
and `(` already consumed.  Note that an omitted initializer leaves its `;`
unconsumed, and an omitted condition produces no `while` wrapper at all. -/
def forBody : Nat → PState → PState × Option Stmt
  | 0, s => (s.pushErr pFuelMsg, none)
  | fuel + 1, s =>
    let initRes :
        PState × Option (Option Stmt) :=
      if s.peekIs (· == .semicolon) then (s, some none)
      else if s.peekNth 0 (· == .var) ∧ s.peekNth 1 isIdentifierTT
          ∧ s.peekNth 2 (· == .equal) then
        let (s1, _) := s.take_next
        let (s2, nameOpt) := s1.take_next
        match nameOpt with
        | none => (s2.pushErr panicMsg, none)
        | some name =>
          if ¬ isIdentifierTT name.get_token_type then
            (errAtTok s2 "Expected identifier after 'var'" name true 1, none)
          else
            let initVal :
                PState × Option (Option Expr) :=
              if s2.peekIs (· == .equal) then
                let (s3, _) := s2.take_next
                match expression fuel s3 with
                | (s4, none) => (s4, none)
                | (s4, some e) => (s4, some (some e))
              else (s2, some none)
            match initVal with
            | (s4, none) => (s4, none)
            | (s4, some initializer) =>
              let (s5, t?) := s4.take_next
              match t? with
              | some t =>
                if t.get_token_type = .semicolon then
                  match initializer with
                  | some iv =>
                    (s5, some (some (.expression (.assign name iv))))
                  | none => (s5.pushErr panicMsg, none)
                else
                  (errAtTok s5 "Expected ';' after variable declaration" t true 1,
                    none)
              | none =>
                (errAtOpt s5 "Expected ';' after variable declaration"
                  s5.m_previous true 1, none)
      else
        match expression fuel s with
        | (s1, none) => (s1, none)
        | (s1, some e) =>
          if s1.peekIs (· == .semicolon) then
            let (s2, _) := s1.take_next
            (s2, some (some (.expression e)))
          else
            (errAtOpt s1 "Expected ';' after for loop initializer" s1.m_previous
              false 1, none)
    match initRes with
    | (si, none) => (si, none)
    | (si, some initializer) =>
      let condRes :
          PState × Option (Option Expr) :=
        if si.peekIs (· == .semicolon) then (si, some none)
        else
          match expression fuel si with
          | (s1, none) => (s1, none)
          | (s1, some e) => (s1, some (some e))
      match condRes with
      | (sc, none) => (sc, none)
      | (sc, some condition) =>
        if sc.peekIs (· == .semicolon) then
          let (sc1, _) := sc.take_next
          let incRes :
              PState × Option (Option Expr) :=
            if sc1.peekIs (· == .rightParen) then (sc1, some none)
            else
              match expression fuel sc1 with
              | (s1, none) => (s1, none)
              | (s1, some e) => (s1, some (some e))
          match incRes with
          | (sn, none) => (sn, none)
          | (sn, some increment) =>
            if sn.peekIs (· == .rightParen) then
              let (sn1, _) := sn.take_next
              match statement fuel sn1 with
              | (sb, none) => (sb, none)
              | (sb, some body0) =>
                let body1 :=
                  match increment with
                  | some inc => Stmt.block [body0, .expression inc]
                  | none => body0
                let body2 :=
                  match condition with
                  | some c => Stmt.while' c body1
                  | none => body1
                match initializer with
                | some (Stmt.expression (Expr.assign name v)) =>
                  (sb, some (.var name (some v) [body2]))
                | some (Stmt.expression _) =>
                  (errAtOpt sb "Expected expression after 'var'" sb.m_previous
                    false 1, none)
                | some _ =>
                  (errAtOpt sb "Expected expression after 'var'" sb.m_previous
                    false 1, none)
                | none => (sb, some body2)
            else
              (errAtOpt sn "Expected ')' after for loop increment" sn.m_previous
                false 1, none)
        else
          (errAtOpt sc "Expected ';' after for loop condition" sc.m_previous false 1,
            none)

/-- The declaration loop of the block branch of `Parser::statement`. -/
def blockStmts : Nat → PState → List Stmt → PState × Option (List Stmt)
  | 0, s, _ => (s.pushErr pFuelMsg, none)
  | fuel + 1, s, acc =>
    if s.peekIs (· == .rightBrace) then (s, some acc)
    else
      match s.peek_next with
      | none =>
        (errAtOpt s "Unterminated block, expected '\x7d'" s.m_previous false 1, none)
      | some _ =>
        match declaration fuel s with
        | (s1, none) => (s1, none)
        | (s1, some st) => blockStmts fuel s1 (acc ++ [st])

/-- `Parser::declaration`. -/
def declaration : Nat → PState → PState × Option Stmt
  | 0, s => (s.pushErr pFuelMsg, none)
  | fuel + 1, s =>
    if s.peekIs (· == .var) then
      let (s1, _) := s.take_next
      let (s2, nameOpt) := s1.take_next
      match nameOpt with
      | none => (s2.pushErr panicMsg, none)
      | some name =>
        if ¬ isIdentifierTT name.get_token_type then
          (errAtTok s2 "Expected identifier after 'var'" name true 1, none)
        else
          let initVal :
              PState × Option (Option Expr) :=
            if s2.peekIs (· == .equal) then
              let (s3, _) := s2.take_next
              match expression fuel s3 with
              | (s4, none) => (s4, none)
              | (s4, some e) => (s4, some (some e))
            else (s2, some none)
          match initVal with
          | (s4, none) => (s4, none)
          | (s4, some initializer) =>
            let (s5, t?) := s4.take_next
            match t? with
            | some t =>
              if t.get_token_type = .semicolon then
                match varChildren fuel s5 [] with
                | (s6, none) => (s6, none)
                | (s6, some statements) =>
                  (s6, some (.var name initializer statements))
              else
                (errAtTok s5 "Expected ';' after variable declaration" t true 1, none)
            | none =>
              (errAtOpt s5 "Expected ';' after variable declaration" s5.m_previous
                true 1, none)
    else if s.peekNth 0 (· == .fun') ∧ s.peekNth 1 isIdentifierTT then
      let (s1, _) := s.take_next
      match s1.peek_next with
      | none => (s1.pushErr panicMsg, none)
      | some peeked =>
        if isIdentifierTT peeked.get_token_type then
          let (s2, nameOpt) := s1.take_next
          match nameOpt with
          | none => (s2.pushErr panicMsg, none)
          | some name =>
            if s2.peekIs (· == .leftParen) then
              let (s3, _) := s2.take_next
              match funParams fuel s3 [] with
              | (s4, none) => (s4, none)
              | (s4, some parameters) =>
                if s4.peekIs (· == .rightParen) then
                  let (s5, _) := s4.take_next
                  if s5.peekIs (· == .leftBrace) then
                    match statement fuel s5 with
                    | (s6, none) => (s6, none)
                    | (s6, some body) =>
                      match body with
                      | .block stmts => (s6, some (.function name parameters stmts))
                      | _ =>
                        (errAtOpt s6 "Expected block after function declaration"
                          s6.m_previous false 1, none)
                  else
                    (errAtOpt s5 "Expected '\x7b' after function declaration"
                      s5.m_previous false 1, none)
                else
                  (errAtOpt s4 "Expected ')' after function parameters"
                    s4.m_previous false 1, none)
            else
              (errAtTok s2 "Expected '(' after function name" name true 0, none)
        else
          (errAtOpt s1 "Expected identifier after 'fun'" s1.m_previous false 1, none)
    else if s.peekIs (· == .ret) then
      let (s1, _) := s.take_next
      match s1.m_previous with
      | none => (s1.pushErr panicMsg, none)
      | some keyword =>
        let valRes :
            PState × Option (Option Expr) :=
          if ¬ s1.peekIs (· == .semicolon) then
            match expression fuel s1 with
            | (s2, none) => (s2, none)
            | (s2, some e) => (s2, some (some e))
          else (s1, some none)
        match valRes with
        | (s2, none) => (s2, none)
        | (s2, some value) =>
          let (s3, t?) := s2.take_next
          match t? with
          | some t =>
            if t.get_token_type = .semicolon then (s3, some (.ret keyword value))
            else
              (errAtTok s3 "Expected ';' after return value" t true 1, none)
          | none =>
            (errAtOpt s3 "Expected ';' after return value" s3.m_previous true 1, none)
    else statement fuel s

/-- The parameter loop of the function-declaration branch of
`Parser::declaration`. -/
def funParams : Nat → PState → List Token → PState × Option (List Token)
  | 0, s, _ => (s.pushErr pFuelMsg, none)
  | fuel + 1, s, acc =>
    if acc.isEmpty ∧ s.peekIs (· == .rightParen) then (s, some acc)
    else if acc.length ≥ 255 then
      (errAtOpt s "Cannot have more than 255 parameters" s.m_previous false 1, none)
    else
      let (s1, t?) := s.take_next
      match t? with
      | none => (s1.pushErr panicMsg, none)
      | some t =>
        if s1.peekIs (· == .comma) then
          let (s2, _) := s1.take_next
          funParams fuel s2 (acc ++ [t])
        else (s1, some (acc ++ [t]))

/-- The trailing-declaration loop of the `var` branch of
`Parser::declaration`: after the `;`, every following declaration up to a
`}` or `Eof` is collected into the `Var` node. -/
def varChildren : Nat → PState → List Stmt → PState × Option (List Stmt)
  | 0, s, _ => (s.pushErr pFuelMsg, none)
  | fuel + 1, s, acc =>
    if s.peek_next.isSome ∧ ¬ s.peekIs (fun tt => tt == .rightBrace || tt == .eof) then
      match declaration fuel s with
      | (s1, none) => (s1, none)
      | (s1, some st) => varChildren fuel s1 (acc ++ [st])
    else (s, some acc)

end

/-- The statement loop of `Parser::parse`: on a failed declaration the
parser synchronizes and keeps going. -/
def parseLoop : Nat → PState → List Stmt → PState × List Stmt
  | 0, s, acc => (s.pushErr pFuelMsg, acc)
  | fuel + 1, s, acc =>
    if s.peekIs (fun tt => !(tt == .eof)) then
      match declaration fuel s with
      | (s1, some st) => parseLoop fuel s1 (acc ++ [st])
      | (s1, none) => parseLoop fuel (sync fuel s1) acc
    else (s, acc)

/-- `Parser::parse`. -/
def parse (fuel : Nat) (tokens : List Token) : Except (List String) (List Stmt) :=
  let s0 : PState :=
    { m_tokens := tokens, m_current := none, m_previous := none, m_errors := [] }
  let (s1, statements) := parseLoop fuel s0 []
  if s1.m_errors.isEmpty then .ok statements else .error s1.m_errors

/-! ## Lexer (`src/lexer.rs`)

Transcribed over the `(byte-index, char)` stream of `char_indices`; for the
ASCII inputs occurring in the claims, byte indices and character positions
coincide.  Decimal number literals are read as exact rationals (the
`f64` rounding of `str::parse` is abstracted, and is exact on the literals
appearing in any claim). -/

def digitVal (c : Char) : Nat := c.toNat - 48

def natOfDigits (ds : List Char) : Nat :=
  ds.foldl (fun a c => a * 10 + digitVal c) 0

/-- Value of `intPart.fracPart` as an exact rational. -/
def ratOfDecimal (intPart fracPart : List Char) : RNum :=
  ⟨natOfDigits intPart * 10 ^ fracPart.length + natOfDigits fracPart,
    10 ^ fracPart.length⟩

/-- Greedy digit run used for number lexemes. -/
def takeDigits : List (Nat × Char) → List Char × List (Nat × Char)
  | [] => ([], [])
  | (i, c) :: rest =>
    if c.isDigit then
      let (ds, rest') := takeDigits rest
      (c :: ds, rest')
    else ([], (i, c) :: rest)

/-- Greedy alphanumeric-or-underscore run used for identifier lexemes. -/
def takeIdentChars : List (Nat × Char) → List Char × List (Nat × Char)
  | [] => ([], [])
  | (i, c) :: rest =>
    if c.isAlphanum ∨ c = '_' then
      let (ds, rest') := takeIdentChars rest
      (c :: ds, rest')
    else ([], (i, c) :: rest)

/-- Body of a string literal: collected chars, remaining stream, updated
line counter, and whether the closing quote was found. -/
def strBody : List (Nat × Char) → Nat → List Char × List (Nat × Char) × Nat × Bool
  | [], line => ([], [], line, false)
  | (_, c) :: rest, line =>
    if c = '"' then ([], rest, line, true)
    else
      let line' := if c = '\n' then line + 1 else line
      let (lexeme, rest', line'', terminated) := strBody rest line'
      (c :: lexeme, rest', line'', terminated)

/-- Skip a `//` comment up to and including the newline. -/
def commentSkip : List (Nat × Char) → Nat → List (Nat × Char) × Nat
  | [], line => ([], line)
  | (_, c) :: rest, line =>
    if c = '\n' then (rest, line + 1) else commentSkip rest line

/-- The `=> line L | column C` suffix of the lexer diagnostics (eleven
spaces of indentation in the source). -/
def lexLineColMsg (txt : String) (line col : Nat) : String :=
  txt ++ "\n           => line " ++ toString line ++ " | column " ++ toString col

/-- `Lexer::lex_token`: one token (or `Skip`, or a diagnostic) off the
stream; returns the rest of the stream and the updated line counter. -/
def lex_token (chars : List (Nat × Char)) (line : Nat) :
    Except String Token × List (Nat × Char) × Nat :=
  match chars with
  | [] => (.error "Unexpected end of input", [], line)
  | (index, c) :: rest =>
    match c with
    | '\n' => (.ok (Token.new_token .skip index 1 (line + 1)), rest, line + 1)
    | ' ' => (.ok (Token.new_token .skip index 1 line), rest, line)
    | '\r' => (.ok (Token.new_token .skip index 1 line), rest, line)
    | '\t' => (.ok (Token.new_token .skip index 1 line), rest, line)
    | '(' => (.ok (Token.new_token .leftParen index 1 line), rest, line)
    | ')' => (.ok (Token.new_token .rightParen index 1 line), rest, line)
    | '{' => (.ok (Token.new_token .leftBrace index 1 line), rest, line)
    | '}' => (.ok (Token.new_token .rightBrace index 1 line), rest, line)
    | ',' => (.ok (Token.new_token .comma index 1 line), rest, line)
    | '.' => (.ok (Token.new_token .dot index 1 line), rest, line)
    | '-' => (.ok (Token.new_token .minus index 1 line), rest, line)
    | '+' => (.ok (Token.new_token .plus index 1 line), rest, line)
    | ';' => (.ok (Token.new_token .semicolon index 1 line), rest, line)
    | '*' => (.ok (Token.new_token .star index 1 line), rest, line)
    | '!' =>
      match rest with
      | (_, '=') :: rest' => (.ok (Token.new_token .bangEqual index 2 line), rest', line)
      | _ => (.ok (Token.new_token .bang index 1 line), rest, line)
    | '=' =>
      match rest with
      | (_, '=') :: rest' => (.ok (Token.new_token .equalEqual index 2 line), rest', line)
      | _ => (.ok (Token.new_token .equal index 1 line), rest, line)
    | '<' =>
      match rest with
      | (_, '=') :: rest' => (.ok (Token.new_token .lessEqual index 2 line), rest', line)
      | _ => (.ok (Token.new_token .less index 1 line), rest, line)
    | '>' =>
      match rest with
      | (_, '=') :: rest' =>
        (.ok (Token.new_token .greaterEqual index 2 line), rest', line)
      | _ => (.ok (Token.new_token .greater index 1 line), rest, line)
    | '/' =>
      match rest with
      | (_, '/') :: rest' =>
        let (rest'', line') := commentSkip rest' line
        (.ok (Token.new_token .skip index 1 line'), rest'', line')
      | _ => (.ok (Token.new_token .slash index 1 line), rest, line)
    | '"' =>
      let (lexeme, rest', line', terminated) := strBody rest line
      if terminated then
        (.ok (Token.new_token (.string (String.mk lexeme)) index (lexeme.length + 2) line'),
          rest', line')
      else
        (.error (lexLineColMsg ("Unterminated string \"" ++ String.mk lexeme ++ "\"")
          line' (index + 1 + lexeme.length)), rest', line')
    | _ =>
      if c.isDigit then
        let (ds, rest1) := takeDigits rest
        let intDigits := c :: ds
        match rest1 with
        | (_, '.') :: (_, d2) :: rest2 =>
          if d2.isDigit then
            let (fs, rest3) := takeDigits rest2
            let fracDigits := d2 :: fs
            let lexemeLen := intDigits.length + 1 + fracDigits.length
            (.ok (Token.new_token (.number (ratOfDecimal intDigits fracDigits))
              index lexemeLen line), rest3, line)
          else
            (.ok (Token.new_token (.number (ratOfDecimal intDigits []))
              index intDigits.length line), rest1, line)
        | _ =>
          (.ok (Token.new_token (.number (ratOfDecimal intDigits []))
            index intDigits.length line), rest1, line)
      else if c.isAlpha ∨ c = '_' then
        let (ds, rest1) := takeIdentChars rest
        let lexeme := String.mk (c :: ds)
        (.ok (Token.new_token (TokenType.new_identifier lexeme) index lexeme.length line),
          rest1, line)
      else
        (.error (lexLineColMsg ("Unexpected character '" ++ String.mk [c] ++ "'")
          line (index + 1)), rest, line)

/-- The scanning loop of `Lexer::tokenize`, fueled (each step consumes at
least one character, so `length + 1` fuel suffices). -/
def tokenizeLoop : Nat → List (Nat × Char) → Nat → List Token → List String →
    List Token × List String × Nat
  | 0, _, line, toks, errs => (toks, errs ++ ["lexing fuel exhausted"], line)
  | _ + 1, [], line, toks, errs => (toks, errs, line)
  | fuel + 1, chars, line, toks, errs =>
    match lex_token chars line with
    | (.ok t, rest, line') =>
      if t.get_token_type = .skip then tokenizeLoop fuel rest line' toks errs
      else tokenizeLoop fuel rest line' (toks ++ [t]) errs
    | (.error e, rest, line') => tokenizeLoop fuel rest line' toks (errs ++ [e])

/-- `Lexer::tokenize`: the token list ends with a single `Eof` token on
success; a non-empty error list is returned instead on failure. -/
def tokenize (input : String) : Except (List String) (List Token) :=
  let chars := input.toList.enum
  let (toks, errs, line) := tokenizeLoop (chars.length + 1) chars 1 [] []
  if errs.isEmpty then .ok (toks ++ [Token.new_token .eof 0 0 (line + 1)])
  else .error errs

/-! ## Driver (`src/interpreter.rs`) -/

/-- Convenience token constructor matching the `Token::new_token(_, 0, 0, 0)`
calls of `src/interpreter.rs` (and used to build concrete ASTs below). -/
def tok0 (tt : TokenType) : Token := Token.new_token tt 0 0 0

/-- The `test2` user callable registered by `Interpreter::new`, with the
global environment snapshot it closes over. -/
def test2Callable (globals : Environment) : Value :=
  .callable (.function (some globals) [] 0 (.block
    [ .expression (.call (.variable' (tok0 (.identifier "println")))
        (tok0 .leftParen)
        [.literal (tok0 (.string "testing123 from rlox print function"))])
    , .ret (tok0 .nil)
        (some (.literal (tok0 (.string "HELLO RETURN")))) ]))

/-- The global environment built by `Interpreter::new`: the native
functions, each with its registered arity. -/
def globalEnv : Environment :=
  let base := (EnvNode.new : Environment)
  let base := base.define "clock" (.callable (.nativeFunction none 0 .clock))
  let base := base.define "sleep_secs" (.callable (.nativeFunction none 1 .sleep_secs))
  let base := base.define "sleep_millis"
    (.callable (.nativeFunction none 1 .sleep_millis))
  let base := base.define "print" (.callable (.nativeFunction none 1 .print))
  let base := base.define "println" (.callable (.nativeFunction none 1 .println))
  let base := base.define "read_line" (.callable (.nativeFunction none 0 .read_line))
  let base := base.define "dbg" (.callable (.nativeFunction none 1 .dbg))
  let base := base.define "test0" (.callable (.nativeFunction none 0 .test0))
  base.define "test2" (test2Callable base)

/-- The per-statement runtime report produced by `Interpreter::interpret`
when a statement's evaluation ends with signals. -/
def runtimeReport (msgs : List String) : String :=
  "Runtime produced " ++ toString msgs.length ++ " "
    ++ (if msgs.length = 1 then "error" else "errors") ++ ":"
    ++ String.join (msgs.map (fun m => "\n    ERROR: " ++ m))

/-- The statement loop of `Interpreter::interpret`: each statement gets a
fresh `StmtEvaluator` on the shared global environment; signals are printed
and execution continues with the next statement. -/
def runProgram (fuel : Nat) : List Stmt → Environment → IoState → List String →
    Environment × IoState × List String
  | [], env, io, reports => (env, io, reports)
  | st :: rest, env, io, reports =>
    let r := evalStmt fuel st { m_env := env, m_errors := [], io := io }
    let reports' :=
      if r.m_errors.isEmpty then reports
      else reports ++ [runtimeReport (sigMsgs r.m_errors)]
    runProgram fuel rest r.m_env r.io reports'

/-- Result of one pipeline run: which phase failed (with its diagnostics),
or the final state of a completed run.  Evaluation happens only in the
`ran` constructor's computation. -/
inductive InterpretOutcome where
  | lexerErrors (errs : List String)
  | parserErrors (errs : List String)
  | ran (env : Environment) (io : IoState) (reports : List String)

/-- `Interpreter::interpret`: lex, then parse, then evaluate, each phase
gated on the previous one's diagnostics being empty. -/
def interpret (input : String) : InterpretOutcome :=
  match tokenize input with
  | .error errs => .lexerErrors errs
  | .ok tokens =>
    match parse (tokens.length * 32 + 32) tokens with
    | .error errs => .parserErrors errs
    | .ok stmts =>
      let (env, io, reports) :=
        runProgram 1000 stmts globalEnv { out := [], stdin := [] } []
      .ran env io reports

/-- Parser diagnostics of an outcome, when the parse phase is the one that
failed. -/
def parserDiagnostics : InterpretOutcome → Option (List String)
  | .parserErrors errs => some errs
  | _ => none

/-! ## Concrete fixtures used by the theorems -/

/-- Empty I/O trace. -/
def emptyIo : IoState := { out := [], stdin := [] }

/-- A fresh expression evaluator over an empty global scope. -/
def exprState0 : EState :=
  { m_env := EnvNode.new, m_result := [], m_errors := [], io := emptyIo }

/-- A fresh statement evaluator over an empty global scope. -/
def stmtState0 : SState :=
  { m_env := EnvNode.new, m_errors := [], io := emptyIo }

/-! ## Environment lemmas (for the claims about `src/environment.rs`) -/

namespace EnvNode

variable {α : Type}

theorem scopeGet_insert_self (s : List (String × α)) (x : String) (v : α) :
    scopeGet (scopeInsert s x v) x = some v := by
  induction s with
  | nil => simp [scopeInsert, scopeGet]
  | cons kv rest ih =>
    obtain ⟨k, w⟩ := kv
    simp only [scopeInsert]
    by_cases hk : k = x
    · rw [if_pos hk]
      simp only [scopeGet]
      rw [if_pos hk]
    · rw [if_neg hk]
      simp only [scopeGet]
      rw [if_neg hk, ih]

theorem scopeGet_insert_ne (s : List (String × α)) (x y : String) (v : α)
    (h : y ≠ x) : scopeGet (scopeInsert s x v) y = scopeGet s y := by
  induction s with
  | nil =>
    simp only [scopeInsert, scopeGet]
    rw [if_neg (fun hh => h hh.symm)]
  | cons kv rest ih =>
    obtain ⟨k, w⟩ := kv
    simp only [scopeInsert]
    by_cases hk : k = x
    · rw [if_pos hk]
      simp only [scopeGet]
      subst hk
      rw [if_neg (fun hh => h hh.symm), if_neg (fun hh => h hh.symm)]
    · rw [if_neg hk]
      simp only [scopeGet]
      by_cases hy : k = y
      · rw [if_pos hy, if_pos hy]
      · rw [if_neg hy, if_neg hy, ih]

theorem scopeGet_insert_isSome (s : List (String × α)) (x y : String) (v w : α)
    (hx : scopeGet s x = some w) :
    (scopeGet (scopeInsert s x v) y).isSome = (scopeGet s y).isSome := by
  by_cases h : y = x
  · subst h
    rw [scopeGet_insert_self, hx]
    rfl
  · rw [scopeGet_insert_ne s x y v h]

/-- `define` binds the name in the innermost scope. -/
theorem get_define_self (env : EnvNode α) (x : String) (v : α) :
    (env.define x v).get x = some v := by
  cases env <;> simp [define, get, scopeGet_insert_self]

/-- `define` leaves the parent chain untouched. -/
theorem define_parent (env : EnvNode α) (x : String) (v : α) :
    (env.define x v).parent = env.parent := by
  cases env <;> rfl

/-- `define` does not alter the binding of any other name. -/
theorem get_define_ne (env : EnvNode α) (x y : String) (v : α) (h : y ≠ x) :
    (env.define x v).get y = env.get y := by
  cases env <;> simp [define, get, scopeGet_insert_ne _ x y v h]

/-- `assign` succeeds exactly when some enclosing scope binds the name. -/
theorem assign_ok_iff_get_isSome (env : EnvNode α) (x : String) (v : α) :
    (∃ env', env.assign x v = .ok env') ↔ (env.get x).isSome := by
  induction env with
  | root s =>
    cases hs : scopeGet s x <;> simp [assign, get, hs]
  | child s p ih =>
    cases hs : scopeGet s x with
    | some w => simp [assign, get, hs]
    | none =>
      cases hp : p.assign x v with
      | ok p' =>
        simp only [assign, get, hs, hp]
        simp only [hp] at ih
        simpa using ih
      | error e =>
        simp only [assign, get, hs, hp]
        simp only [hp] at ih
        simpa using ih

/-- After a successful `assign`, `get` returns the assigned value. -/
theorem assign_get_self (env : EnvNode α) (x : String) (v : α) :
    ∀ env', env.assign x v = .ok env' → env'.get x = some v := by
  induction env with
  | root s =>
    intro env' h
    cases hs : scopeGet s x with
    | some w =>
      rw [assign, hs] at h
      cases h
      simp [get, scopeGet_insert_self]
    | none => rw [assign, hs] at h; cases h
  | child s p ih =>
    intro env' h
    cases hs : scopeGet s x with
    | some w =>
      rw [assign, hs] at h
      cases h
      simp [get, scopeGet_insert_self]
    | none =>
      rw [assign, hs] at h
      cases hp : p.assign x v with
      | ok p' =>
        rw [hp] at h
        cases h
        simp [get, hs, ih p' hp]
      | error e => rw [hp] at h; cases h

/-- A successful `assign` does not alter the binding of any other name. -/
theorem assign_get_ne (env : EnvNode α) (x y : String) (v : α) (hy : y ≠ x) :
    ∀ env', env.assign x v = .ok env' → env'.get y = env.get y := by
  induction env with
  | root s =>
    intro env' h
    cases hs : scopeGet s x with
    | some w =>
      rw [assign, hs] at h
      cases h
      simp [get, scopeGet_insert_ne s x y v hy]
    | none => rw [assign, hs] at h; cases h
  | child s p ih =>
    intro env' h
    cases hs : scopeGet s x with
    | some w =>
      rw [assign, hs] at h
      cases h
      simp [get, scopeGet_insert_ne s x y v hy]
    | none =>
      rw [assign, hs] at h
      cases hp : p.assign x v with
      | ok p' =>
        rw [hp] at h
        cases h
        simp [get, ih p' hp]
      | error e => rw [hp] at h; cases h

/-- A successful `assign` preserves the number of scopes in the chain. -/
theorem assign_depth (env : EnvNode α) (x : String) (v : α) :
    ∀ env', env.assign x v = .ok env' → env'.depth = env.depth := by
  induction env with
  | root s =>
    intro env' h
    cases hs : scopeGet s x with
    | some w => rw [assign, hs] at h; cases h; rfl
    | none => rw [assign, hs] at h; cases h
  | child s p ih =>
    intro env' h
    cases hs : scopeGet s x with
    | some w => rw [assign, hs] at h; cases h; rfl
    | none =>
      rw [assign, hs] at h
      cases hp : p.assign x v with
      | ok p' =>
        rw [hp] at h
        cases h
        simp [depth, ih p' hp]
      | error e => rw [hp] at h; cases h

/-- A successful `assign` rewrites the nearest scope binding the name in
place: which scope binds which name is unchanged everywhere. -/
theorem assign_nearestContaining (env : EnvNode α) (x : String) (v : α) :
    ∀ env', env.assign x v = .ok env' →
      ∀ y, env'.nearestContaining y = env.nearestContaining y := by
  induction env with
  | root s =>
    intro env' h y
    cases hs : scopeGet s x with
    | some w =>
      rw [assign, hs] at h
      cases h
      simp only [nearestContaining]
      have hsome := scopeGet_insert_isSome s x y v w hs
      cases hy : scopeGet s y with
      | some u =>
        rw [hy] at hsome
        cases hins : scopeGet (scopeInsert s x v) y with
        | some _ => rfl
        | none => rw [hins] at hsome; simp at hsome
      | none =>
        rw [hy] at hsome
        cases hins : scopeGet (scopeInsert s x v) y with
        | some _ => rw [hins] at hsome; simp at hsome
        | none => rfl
    | none => rw [assign, hs] at h; cases h
  | child s p ih =>
    intro env' h y
    cases hs : scopeGet s x with
    | some w =>
      rw [assign, hs] at h
      cases h
      simp only [nearestContaining]
      have hsome := scopeGet_insert_isSome s x y v w hs
      cases hy : scopeGet s y with
      | some u =>
        rw [hy] at hsome
        cases hins : scopeGet (scopeInsert s x v) y with
        | some _ => rfl
        | none => rw [hins] at hsome; simp at hsome
      | none =>
        rw [hy] at hsome
        cases hins : scopeGet (scopeInsert s x v) y with
        | some _ => rw [hins] at hsome; simp at hsome
        | none => rfl
    | none =>
      rw [assign, hs] at h
      cases hp : p.assign x v with
      | ok p' =>
        rw [hp] at h
        cases h
        simp only [nearestContaining]
        cases hy : scopeGet s y with
        | some u => rfl
        | none => rw [ih p' hp y]
      | error e => rw [hp] at h; cases h

end EnvNode

/-! ## Claim C8 — environment invariants -/

/-- C8: in every environment chain, `define` writes the binding into the
innermost scope (the parent chain is untouched and other names keep their
values); `assign` succeeds exactly when some enclosing scope binds the
name; and a successful `assign x v` updates the nearest scope binding `x`
in place — afterwards `get x` returns `v`, every other name is unchanged,
and the chain's shape and name-to-scope assignment are preserved. -/
theorem c8_environment_invariants {α : Type} (env : EnvNode α) (x y : String) (v : α) :
    ((env.define x v).get x = some v)
    ∧ ((env.define x v).parent = env.parent)
    ∧ (y ≠ x → (env.define x v).get y = env.get y)
    ∧ ((∃ env', env.assign x v = .ok env') ↔ (env.get x).isSome)
    ∧ (∀ env', env.assign x v = .ok env' →
        env'.get x = some v
        ∧ (y ≠ x → env'.get y = env.get y)
        ∧ env'.depth = env.depth
        ∧ (∀ z, env'.nearestContaining z = env.nearestContaining z)) :=
  ⟨EnvNode.get_define_self env x v, EnvNode.define_parent env x v,
    fun h => EnvNode.get_define_ne env x y v h,
    EnvNode.assign_ok_iff_get_isSome env x v,
    fun env' h => ⟨EnvNode.assign_get_self env x v env' h,
      fun hy => EnvNode.assign_get_ne env x y v hy env' h,
      EnvNode.assign_depth env x v env' h,
      fun z => EnvNode.assign_nearestContaining env x v env' h z⟩⟩

/-- Two-scope chain used to witness the environment invariants: the inner
scope binds `a`, the outer (global) scope binds `x`. -/
def envW : EnvNode Nat := .child [("a", 1)] (.root [("x", 2)])

/-- Result of `envW.assign "x" 7`: the outer binding is updated in place. -/
def envW' : EnvNode Nat := .child [("a", 1)] (.root [("x", 7)])

theorem c8_environment_invariants_witness :
    ("a" : String) ≠ "x"
    ∧ (envW.define "x" (9 : Nat)).get "x" = some 9
    ∧ envW.assign "x" (7 : Nat) = .ok envW'
    ∧ (envW'.get "x" = some 7
        ∧ envW'.get "a" = envW.get "a"
        ∧ envW'.depth = envW.depth
        ∧ envW'.nearestContaining "x" = envW.nearestContaining "x") :=
  have big := c8_environment_invariants envW "x" "a" 7
  have hassign : envW.assign "x" (7 : Nat) = .ok envW' := by rfl
  have inst := big.2.2.2.2 envW' hassign
  ⟨by decide, (c8_environment_invariants envW "x" "a" 9).1, hassign,
    inst.1, inst.2.1 (by decide), inst.2.2.1, inst.2.2.2 "x"⟩

/-! ## Claim C7 — short-circuit evaluation -/

/-- C7: for every right-hand operand `rhs` and every evaluator state with no
pending errors, `false and rhs` evaluates to `Boolean false` and
`true or rhs` evaluates to `Boolean true`, with the environment, the error
list and the I/O trace unchanged — `rhs` is never evaluated, so its side
effects do not occur and its errors are not raised. -/
theorem c7_short_circuit (fuel : Nat) (rhs : Expr) (env : Environment)
    (stack : List Value) (io : IoState) :
    evalExpr (fuel + 2) (.logical (.literal (tok0 .false')) (tok0 .and) rhs)
        { m_env := env, m_result := stack, m_errors := [], io := io }
      = { m_env := env, m_result := .boolean false :: stack, m_errors := [], io := io }
    ∧ evalExpr (fuel + 2) (.logical (.literal (tok0 .true')) (tok0 .or) rhs)
        { m_env := env, m_result := stack, m_errors := [], io := io }
      = { m_env := env, m_result := .boolean true :: stack, m_errors := [], io := io } :=
  ⟨rfl, rfl⟩

/-! ## Claim C1 — numeric equality in binary expressions -/

/-- A number within the `1e-10` tolerance of `0` but not equal to it
(`2^-40`, exactly representable in `f64`). -/
def tiny : RNum := ⟨1, 2 ^ 40⟩

/-- C1 counterexample: `Value::is_equal` holds of `0` and `2^-40` (they are
within the `1e-10` tolerance), yet the binary `==` of the evaluator yields
`Boolean false` on those very operands (and `!=` yields `true`): the `==` /
`!=` of `visit_binary` are not computed by tolerance equality. -/
theorem c1_counterexample :
    Value.is_equal (.number (rnum 0)) (.number tiny) = true
    ∧ evalExpr 2 (.binary (.literal (tok0 (.number (rnum 0)))) (tok0 .equalEqual)
        (.literal (tok0 (.number tiny)))) exprState0
      = { exprState0 with m_result := [.boolean false] }
    ∧ evalExpr 2 (.binary (.literal (tok0 (.number (rnum 0)))) (tok0 .bangEqual)
        (.literal (tok0 (.number tiny)))) exprState0
      = { exprState0 with m_result := [.boolean true] } :=
  ⟨by decide, rfl, rfl⟩

/-- C1 (amended): for every two operands evaluating to Number values, `==`
and `!=` produce a Boolean computed by exact value equality of the numbers
(`Value::is_equal`'s `1e-10` tolerance is not involved); consequently
`0.1 + 0.2 == 0.3` is decided by exact `f64` comparison, not by tolerance. -/
theorem c1_exact_equality (fuel : Nat) (a b : RNum) (env : Environment)
    (stack : List Value) (io : IoState) :
    evalExpr (fuel + 2) (.binary (.literal (tok0 (.number a))) (tok0 .equalEqual)
        (.literal (tok0 (.number b))))
        { m_env := env, m_result := stack, m_errors := [], io := io }
      = { m_env := env, m_result := .boolean (RNum.req a b) :: stack, m_errors := []
          io := io }
    ∧ evalExpr (fuel + 2) (.binary (.literal (tok0 (.number a))) (tok0 .bangEqual)
        (.literal (tok0 (.number b))))
        { m_env := env, m_result := stack, m_errors := [], io := io }
      = { m_env := env, m_result := .boolean (!(RNum.req a b)) :: stack, m_errors := []
          io := io } :=
  ⟨rfl, rfl⟩

/-! ## Claim C5 — the unary `!` operator -/

/-- C5 counterexample: `!0` evaluates to `Boolean false` (the claim's
tolerance-zero rule predicts `true`), and `!nil` raises a type diagnostic
instead of producing the claimed boolean negation of truthiness. -/
theorem c5_counterexample :
    evalExpr 2 (.unary (tok0 .bang) (.literal (tok0 (.number (rnum 0))))) exprState0
      = { exprState0 with m_result := [.boolean false] }
    ∧ evalExpr 2 (.unary (tok0 .bang) (.literal (tok0 .nil))) exprState0
      = { exprState0 with m_errors := ["Invalid unary expression => ! nil"] } :=
  ⟨rfl, rfl⟩

/-- C5 (amended): `!` is defined only on `Number` and `Boolean` operands.
On a Number `n` it yields `Boolean` of `n != 0` under the `1e-10` tolerance
(`true` iff `n` is at least the tolerance away from `0` — the negation of
the claimed rule); on a Boolean it is ordinary negation; on any other value
(for example a string literal) it raises an `Invalid unary expression`
diagnostic. -/
theorem c5_bang_semantics (fuel : Nat) (n : RNum) (b : Bool) (str : String)
    (env : Environment) (stack : List Value) (io : IoState) :
    evalExpr (fuel + 2) (.unary (tok0 .bang) (.literal (tok0 (.number n))))
        { m_env := env, m_result := stack, m_errors := [], io := io }
      = { m_env := env
          m_result := .boolean (!(Value.is_equal (.number n) (.number (rnum 0)))) :: stack
          m_errors := [], io := io }
    ∧ evalExpr (fuel + 2) (.unary (tok0 .bang)
        (.literal (tok0 (if b then .true' else .false'))))
        { m_env := env, m_result := stack, m_errors := [], io := io }
      = { m_env := env, m_result := .boolean (!b) :: stack, m_errors := [], io := io }
    ∧ evalExpr (fuel + 2) (.unary (tok0 .bang) (.literal (tok0 (.string str))))
        { m_env := env, m_result := stack, m_errors := [], io := io }
      = { m_env := env, m_result := stack
          m_errors := ["Invalid unary expression => ! \"" ++ str ++ "\""], io := io } :=
  ⟨rfl, by cases b <;> rfl, rfl⟩

/-! ## Claim C6 — reflexivity of `==` -/

/-- A parameterless user callable over the empty environment. -/
def fCallable : Callable := .function (some EnvNode.new) [] 0 (.block [])

/-- Environment binding `f` to `fCallable`. -/
def envF : Environment := (EnvNode.new : Environment).define "f" (.callable fCallable)

/-- Fresh expression evaluator over `envF`. -/
def exprStateF : EState :=
  { m_env := envF, m_result := [], m_errors := [], io := emptyIo }

/-- The side-effect-free expression `f`. -/
def fVar : Expr := .variable' (tok0 (.identifier "f"))

/-- C6 counterexample: for the side-effect-free expression `E = f` denoting
a callable value (whose evaluation succeeds), `E == E` does not evaluate to
`Boolean true` — `visit_binary` raises a type-mismatch diagnostic on two
callables and leaves no result. -/
theorem c6_counterexample :
    evalExpr 2 fVar exprStateF = { exprStateF with m_result := [.callable fCallable] }
    ∧ (evalExpr 2 (.binary fVar (tok0 .equalEqual) fVar) exprStateF).m_errors
        = ["Invalid binary expression => fun () \x7b \x7d  == fun () \x7b \x7d "]
    ∧ (evalExpr 2 (.binary fVar (tok0 .equalEqual) fVar) exprStateF).m_result = [] :=
  ⟨rfl, rfl, rfl⟩

/-- C6 (amended): for every side-effect-free successfully-evaluating
expression `E` whose value is a Number or a String (numbers here being
exact rationals; the NaN result of `0.0/0.0` is outside this model),
`E == E` evaluates to `Boolean true` and `E != E` to `Boolean false`; for
Boolean, Nil or Callable values `==`/`!=` raise a type-mismatch diagnostic
instead (the counterexample exhibits the callable case). -/
theorem c6_reflexivity (fuel : Nat) (E : Expr) (v : Value)
    (hE : ∀ st : EState, evalExpr fuel E st = st.push v)
    (hv : (∃ n, v = .number n) ∨ (∃ str, v = .string str))
    (env : Environment) (stack : List Value) (io : IoState) :
    evalExpr (fuel + 1) (.binary E (tok0 .equalEqual) E)
        { m_env := env, m_result := stack, m_errors := [], io := io }
      = { m_env := env, m_result := .boolean true :: stack, m_errors := [], io := io }
    ∧ evalExpr (fuel + 1) (.binary E (tok0 .bangEqual) E)
        { m_env := env, m_result := stack, m_errors := [], io := io }
      = { m_env := env, m_result := .boolean false :: stack, m_errors := [], io := io } := by
  have h1 : evalExpr fuel E { m_env := env, m_result := stack, m_errors := [], io := io }
      = { m_env := env, m_result := v :: stack, m_errors := [], io := io } := by
    rw [hE]; rfl
  have h2 : evalExpr fuel E { m_env := env, m_result := v :: stack, m_errors := [], io := io }
      = { m_env := env, m_result := v :: v :: stack, m_errors := [], io := io } := by
    rw [hE]; rfl
  rcases hv with ⟨n, rfl⟩ | ⟨str, rfl⟩ <;>
    exact ⟨by simp [evalExpr, h1, h2, EState.push, RNum.req, tok0, Token.new_token,
        Token.get_token_type],
      by simp [evalExpr, h1, h2, EState.push, RNum.req, tok0, Token.new_token,
        Token.get_token_type]⟩

theorem c6_reflexivity_witness :
    evalExpr 2 (.binary (.literal (tok0 (.number (rnum 3)))) (tok0 .equalEqual)
        (.literal (tok0 (.number (rnum 3))))) exprState0
      = { exprState0 with m_result := [.boolean true] }
    ∧ evalExpr 2 (.binary (.literal (tok0 (.number (rnum 3)))) (tok0 .bangEqual)
        (.literal (tok0 (.number (rnum 3))))) exprState0
      = { exprState0 with m_result := [.boolean false] } :=
  c6_reflexivity 1 (.literal (tok0 (.number (rnum 3)))) (.number (rnum 3))
    (fun _ => rfl) (Or.inl ⟨rnum 3, rfl⟩) EnvNode.new [] emptyIo

/-! ## Claim C2 — the `Callable::call` contract -/

theorem any_ret_of_getLast_ret :
    ∀ (sigs : List ErrorValue) (w : Value), sigs.getLast? = some (.ret w) →
      sigs.any (fun s => s.retVal.isSome) = true
  | [], w => by intro h; cases h
  | [a], w => by
    intro h
    simp only [List.getLast?_singleton, Option.some.injEq] at h
    subst h
    simp [ErrorValue.retVal]
  | a :: b :: rest, w => by
    intro h
    rw [List.getLast?_cons_cons] at h
    have := any_ret_of_getLast_ret (b :: rest) w h
    simp only [List.any_cons] at this ⊢
    rw [this]
    simp

/-- C2 (amended): per the result computation of `Callable::call`, a body
evaluation with no signals yields `Nil`; a body whose signal list ends in a
return signal yields that signal's payload and stops propagating it — but
it also discards every earlier signal, so diagnostics raised before the
return are **not** propagated; only when no return signal occurred are the
body's diagnostics propagated to the caller. -/
theorem c2_call_contract (sigs : List ErrorValue) (v : Value) :
    (Callable.resultFromSignals [] = .ok .nil)
    ∧ (sigs.getLast? = some (.ret v) → Callable.resultFromSignals sigs = .ok v)
    ∧ (sigs ≠ [] → sigs.any (fun s => s.retVal.isSome) = false →
        Callable.resultFromSignals sigs = .err (sigMsgs sigs)) := by
  refine ⟨rfl, ?_, ?_⟩
  · intro h
    cases sigs with
    | nil => cases h
    | cons a rest => rw [Callable.resultFromSignals, h]
  · intro hne hnoret
    cases sigs with
    | nil => cases hne rfl
    | cons a rest =>
      cases hl : (a :: rest).getLast? with
      | none => simp at hl
      | some x =>
        cases x with
        | ret w =>
          have := any_ret_of_getLast_ret (a :: rest) w hl
          rw [this] at hnoret
          cases hnoret
        | error m =>
          rw [Callable.resultFromSignals, hl, if_neg]
          · rfl
          · simp [hnoret]

theorem c2_call_contract_witness :
    Callable.resultFromSignals [.error "boom", .ret (.number (rnum 5))]
      = .ok (.number (rnum 5))
    ∧ Callable.resultFromSignals [.error "boom"] = .err ["boom"] :=
  ⟨(c2_call_contract [.error "boom", .ret (.number (rnum 5))] (.number (rnum 5))).2.1 rfl,
   (c2_call_contract [.error "boom"] .nil).2.2 (by simp) rfl⟩

/-- Function body raising one diagnostic (an undefined variable) and then
returning `5`. -/
def c2Body : Stmt :=
  .block [ .expression (.variable' (tok0 (.identifier "undefined_y"))),
    .ret (tok0 .ret) (some (.literal (tok0 (.number (rnum 5))))) ]

/-- Parameterless user callable with body `c2Body`. -/
def c2Callable : Callable := .function (some EnvNode.new) [] 0 c2Body

/-- C2 counterexample: evaluating the body raises a non-return diagnostic
followed by a return signal, yet the invocation yields `Ok(5)` with no
error channel at all — the diagnostic is discarded rather than propagated
to the caller. -/
theorem c2_counterexample :
    (evalStmt 100 c2Body stmtState0).m_errors
      = [.error "Undefined variable => Identifier(\"undefined_y\")",
         .ret (.number (rnum 5))]
    ∧ callableCall 101 c2Callable [] emptyIo = (.ok (.number (rnum 5)), emptyIo) :=
  ⟨rfl, rfl⟩

/-! ## Claims C3 and C4 — the `for` desugaring -/

/-- Token stream of `for (var x = a; x < b; x = x + c) {}`. -/
def forTokens (x : String) (a b c : RNum) : List Token :=
  [ tok0 .for', tok0 .leftParen, tok0 .var, tok0 (.identifier x), tok0 .equal,
    tok0 (.number a), tok0 .semicolon, tok0 (.identifier x), tok0 .less,
    tok0 (.number b), tok0 .semicolon, tok0 (.identifier x), tok0 .equal,
    tok0 (.identifier x), tok0 .plus, tok0 (.number c), tok0 .rightParen,
    tok0 .leftBrace, tok0 .rightBrace, tok0 .eof ]

/-- The loop core `while (x < b) { {} x = x + c; }` shared by the desugared
forms. -/
def whileCore (x : String) (b c : RNum) : Stmt :=
  .while' (.binary (.variable' (tok0 (.identifier x))) (tok0 .less)
      (.literal (tok0 (.number b))))
    (.block [ .block [],
      .expression (.assign (tok0 (.identifier x))
        (.binary (.variable' (tok0 (.identifier x))) (tok0 .plus)
          (.literal (tok0 (.number c))))) ])

/-- What the parser actually produces for a full `for`: a `Var` node whose
trailing statements hold the loop. -/
def forVarForm (x : String) (a b c : RNum) : Stmt :=
  .var (tok0 (.identifier x)) (some (.literal (tok0 (.number a))))
    [whileCore x b c]

/-- The block form `{ var x = a; while (x < b) { {} x = x + c; } }` that the
spec claims the `for` desugars into. -/
def forBlockForm (x : String) (a b c : RNum) : Stmt :=
  .block [ .var (tok0 (.identifier x)) (some (.literal (tok0 (.number a)))) [],
    whileCore x b c ]

/-- C3 counterexample: the parser turns
`for (var i = 0; i < 1; i = i + 1) {}` into a `Var` node carrying the while
loop as trailing statements, and evaluating that statement is
distinguishable from evaluating `{ var i = 0; while (i < 1) { {} i = i + 1; } }`:
both runs are error-free, but after the for-form `i` remains defined
(with value `1`) in the enclosing environment, while after the block form
`i` is undefined — different final environments. -/
theorem c3_counterexample :
    parse 1000 (forTokens "i" (rnum 0) (rnum 1) (rnum 1))
      = .ok [forVarForm "i" (rnum 0) (rnum 1) (rnum 1)]
    ∧ (evalStmt 100 (forVarForm "i" (rnum 0) (rnum 1) (rnum 1)) stmtState0).m_errors = []
    ∧ (evalStmt 100 (forBlockForm "i" (rnum 0) (rnum 1) (rnum 1)) stmtState0).m_errors = []
    ∧ (evalStmt 100 (forVarForm "i" (rnum 0) (rnum 1) (rnum 1)) stmtState0).m_env.get "i"
        = some (.number (rnum 1))
    ∧ (evalStmt 100 (forBlockForm "i" (rnum 0) (rnum 1) (rnum 1)) stmtState0).m_env.get "i"
        = none :=
  ⟨rfl, rfl, rfl, rfl, rfl⟩

/-- C3 (amended): for every for-loop with all three clauses present (with a
`var` initializer), the parser eliminates the `for` at parse time — no
`for` node exists in `Stmt` — and produces
`Var(x, a, [while (x < b) { body; x = x + c; }])`: the while-loop core of
the spec's desugaring, but with the loop variable bound in the enclosing
scope rather than in a wrapper block, which is observably different from
`{ init; while (cond) { body; inc; } }`. -/
theorem c3_desugar_shape (x : String) (a b c : RNum) :
    parse 1000 (forTokens x a b c) = .ok [forVarForm x a b c] := rfl

/-- Token stream of `for (var i = 0;; i = i + 1) {}` (condition omitted). -/
def c4NoCondToks : List Token :=
  [ tok0 .for', tok0 .leftParen, tok0 .var, tok0 (.identifier "i"), tok0 .equal,
    tok0 (.number (rnum 0)), tok0 .semicolon, tok0 .semicolon, tok0 (.identifier "i"),
    tok0 .equal, tok0 (.identifier "i"), tok0 .plus, tok0 (.number (rnum 1)),
    tok0 .rightParen, tok0 .leftBrace, tok0 .rightBrace, tok0 .eof ]

/-- Parse result of the condition-less `for`: no `while` wrapper at all. -/
def c4NoCondResult : Stmt :=
  .var (tok0 (.identifier "i")) (some (.literal (tok0 (.number (rnum 0)))))
    [ .block [ .block [],
      .expression (.assign (tok0 (.identifier "i"))
        (.binary (.variable' (tok0 (.identifier "i"))) (tok0 .plus)
          (.literal (tok0 (.number (rnum 1)))))) ] ]

/-- Token stream of `for (var i = 0; true; i = i + 1) {}`. -/
def c4TrueCondToks : List Token :=
  [ tok0 .for', tok0 .leftParen, tok0 .var, tok0 (.identifier "i"), tok0 .equal,
    tok0 (.number (rnum 0)), tok0 .semicolon, tok0 .true', tok0 .semicolon,
    tok0 (.identifier "i"), tok0 .equal, tok0 (.identifier "i"), tok0 .plus,
    tok0 (.number (rnum 1)), tok0 .rightParen, tok0 .leftBrace, tok0 .rightBrace,
    tok0 .eof ]

/-- Parse result when the condition is the literal `true`. -/
def c4TrueCondResult : Stmt :=
  .var (tok0 (.identifier "i")) (some (.literal (tok0 (.number (rnum 0)))))
    [ .while' (.literal (tok0 .true'))
        (.block [ .block [],
          .expression (.assign (tok0 (.identifier "i"))
            (.binary (.variable' (tok0 (.identifier "i"))) (tok0 .plus)
              (.literal (tok0 (.number (rnum 1)))))) ]) ]

mutual
/-- Does a statement contain a `while` node anywhere? -/
def stmtHasWhile : Stmt → Bool
  | .block stmts => stmtsHaveWhile stmts
  | .expression _ => false
  | .print _ => false
  | .var _ _ children => stmtsHaveWhile children
  | .while' _ _ => true
  | .if' _ thenB elseB =>
    stmtHasWhile thenB || (match elseB with
      | some e => stmtHasWhile e
      | none => false)
  | .function _ _ body => stmtsHaveWhile body
  | .ret _ _ => false

def stmtsHaveWhile : List Stmt → Bool
  | [] => false
  | s :: rest => stmtHasWhile s || stmtsHaveWhile rest
end

/-- C4 counterexample: omitting the condition of a `for` does not desugar
as if the condition were the literal `true`: the parse result contains no
`while` node at all (while the explicit-`true` variant does), so the two
parses differ, and evaluating the condition-less form runs the body and
increment exactly once (terminating cleanly with `i = 1` instead of
re-executing until terminated by other means). -/
theorem c4_counterexample :
    parse 1000 c4NoCondToks = .ok [c4NoCondResult]
    ∧ parse 1000 c4TrueCondToks = .ok [c4TrueCondResult]
    ∧ stmtHasWhile c4NoCondResult = false
    ∧ stmtHasWhile c4TrueCondResult = true
    ∧ c4NoCondResult ≠ c4TrueCondResult
    ∧ (evalStmt 100 c4NoCondResult stmtState0).m_errors = []
    ∧ (evalStmt 100 c4NoCondResult stmtState0).m_env.get "i" = some (.number (rnum 1)) :=
  ⟨rfl, rfl, rfl, rfl,
    fun h => absurd (congrArg stmtHasWhile h) (by decide), rfl, rfl⟩

/-- Token stream of `for (var i = 0; i < 1;) {}` (increment omitted). -/
def c4NoIncToks : List Token :=
  [ tok0 .for', tok0 .leftParen, tok0 .var, tok0 (.identifier "i"), tok0 .equal,
    tok0 (.number (rnum 0)), tok0 .semicolon, tok0 (.identifier "i"), tok0 .less,
    tok0 (.number (rnum 1)), tok0 .semicolon, tok0 .rightParen,
    tok0 .leftBrace, tok0 .rightBrace, tok0 .eof ]

/-- Parse result of the increment-less `for`: the increment is elided and
the body is not wrapped in an extra block. -/
def c4NoIncResult : Stmt :=
  .var (tok0 (.identifier "i")) (some (.literal (tok0 (.number (rnum 0)))))
    [ .while' (.binary (.variable' (tok0 (.identifier "i"))) (tok0 .less)
        (.literal (tok0 (.number (rnum 1))))) (.block []) ]

/-- Token stream of `for (; i < 1;) {}` (initializer omitted). -/
def c4NoInitToks : List Token :=
  [ tok0 .for', tok0 .leftParen, tok0 .semicolon, tok0 (.identifier "i"), tok0 .less,
    tok0 (.number (rnum 1)), tok0 .semicolon, tok0 .rightParen,
    tok0 .leftBrace, tok0 .rightBrace, tok0 .eof ]

/-- C4 (amended): an omitted condition elides the `while` wrapper entirely
(body and increment run exactly once); an omitted increment is elided as
claimed; but an omitted initializer is **not** elided — its `;` is left
unconsumed, shifting the remaining clauses, and the `for` fails to parse
with diagnostics. -/
theorem c4_elision :
    parse 1000 c4NoCondToks = .ok [c4NoCondResult]
    ∧ parse 1000 c4NoIncToks = .ok [c4NoIncResult]
    ∧ parse 1000 c4NoInitToks
      = .error ["Expected ')' after for loop increment\n    => line 0 | column 1",
          "Invalid operands, expected expression\n    => line 0 | column 1"] :=
  ⟨rfl, rfl, rfl⟩

/-! ## Claim C9 — error accumulation on `var ; print(;` -/

/-- C9 counterexample: the pipeline on `var ; print(;` produces exactly one
parser diagnostic, not at least two — after the failed `var` declaration
the parser synchronizes past `print(;` without reporting again. -/
theorem c9_counterexample :
    (parserDiagnostics (interpret "var ; print(;")).map List.length = some 1 :=
  rfl

/-- C9 (amended): running the pipeline on `var ; print(;` stops at the
parse phase (evaluation is not attempted) with exactly one diagnostic,
which names a line and a column (`line 0`, the `saturating_sub` artifact of
the source, and `column 5`). -/
theorem c9_single_diagnostic :
    interpret "var ; print(;"
      = .parserErrors ["Expected identifier after 'var'\n    => line 0 | column 5"] :=
  rfl

/-! ## Claim C10 — `var` declarations swallow the following declarations -/

/-- Token stream of `n` expression statements `y;` followed by `Eof`. -/
def chTokens (y : String) : Nat → List Token
  | 0 => [tok0 .eof]
  | n + 1 => tok0 (.identifier y) :: tok0 .semicolon :: chTokens y n

/-- Token stream of `var x; y; y; …; y;` (`n` trailing declarations). -/
def varToks (x y : String) (n : Nat) : List Token :=
  tok0 .var :: tok0 (.identifier x) :: tok0 .semicolon :: chTokens y n

/-- One expression statement `y;` consumes exactly its two tokens (16 fuel
levels cover the descent through the grammar). -/
theorem declaration_exprStmt (y : String) (fuel : Nat) (rest : List Token)
    (cur prev : Option Token) (errs : List String) :
    declaration (fuel + 16)
        ⟨tok0 (.identifier y) :: tok0 .semicolon :: rest, cur, prev, errs⟩
      = (⟨rest, some (tok0 .semicolon), some (tok0 (.identifier y)), errs⟩,
          some (.expression (.variable' (tok0 (.identifier y))))) := rfl

/-- The trailing-declaration loop stops in front of `Eof` without consuming
it. -/
theorem varChildren_eof (fuel : Nat) (cur prev : Option Token) (acc : List Stmt)
    (errs : List String) :
    varChildren (fuel + 1) ⟨[tok0 .eof], cur, prev, errs⟩ acc
      = (⟨[tok0 .eof], cur, prev, errs⟩, some acc) := rfl

/-- One iteration of the trailing-declaration loop: an expression statement
`y;` is appended to the accumulator. -/
theorem varChildren_cons (y : String) (fuel : Nat) (rest : List Token)
    (cur prev : Option Token) (acc : List Stmt) (errs : List String) :
    varChildren ((fuel + 16) + 1)
        ⟨tok0 (.identifier y) :: tok0 .semicolon :: rest, cur, prev, errs⟩ acc
      = varChildren (fuel + 16)
          ⟨rest, some (tok0 .semicolon), some (tok0 (.identifier y)), errs⟩
          (acc ++ [.expression (.variable' (tok0 (.identifier y)))]) := rfl

/-- The trailing-declaration loop of `Parser::declaration` consumes all `n`
following declarations up to `Eof` and collects them in order. -/
theorem varChildren_replicate (y : String) :
    ∀ (n fuel : Nat) (acc : List Stmt) (errs : List String) (cur prev : Option Token),
      varChildren (17 * n + fuel + 1) ⟨chTokens y n, cur, prev, errs⟩ acc
        = (⟨[tok0 .eof],
            (match n with | 0 => cur | _ + 1 => some (tok0 .semicolon)),
            (match n with | 0 => prev | _ + 1 => some (tok0 (.identifier y))),
            errs⟩,
          some (acc ++ List.replicate n (.expression (.variable' (tok0 (.identifier y))))))
  | 0, fuel, acc, errs, cur, prev => by
    rw [show 17 * 0 + fuel + 1 = fuel + 1 by omega]
    simp only [chTokens]
    rw [varChildren_eof]
    simp
  | n + 1, fuel, acc, errs, cur, prev => by
    rw [show 17 * (n + 1) + fuel + 1 = ((17 * n + fuel + 1) + 16) + 1 by omega]
    simp only [chTokens]
    rw [varChildren_cons y (17 * n + fuel + 1) (chTokens y n) cur prev acc errs]
    rw [show (17 * n + fuel + 1) + 16 = 17 * n + (fuel + 16) + 1 by omega]
    rw [varChildren_replicate y n (fuel + 16)
      (acc ++ [Stmt.expression (Expr.variable' (tok0 (TokenType.identifier y)))]) errs
      (some (tok0 .semicolon)) (some (tok0 (.identifier y)))]
    cases n <;> simp [List.replicate_succ]

/-- C10: for every program whose first declaration is a `var` declaration
followed by `n` further declarations in the same (top-level) enclosing
block, the parser does not return those declarations as siblings of the
`Var` statement: `Parser::declaration` consumes every following declaration
up to the enclosing `}` or end of input and attaches them as children of
the `Var` node, so the statement list produced by `parse` is a single
nested `Var` statement holding all `n` following declarations, not a flat
sequence of `n + 1` statements. -/
theorem c10_var_swallows_declarations (x y : String) (n : Nat) :
    parse (17 * n + 20) (varToks x y n)
      = .ok [.var (tok0 (.identifier x)) none
          (List.replicate n (.expression (.variable' (tok0 (.identifier y)))))] := by
  have h2 := varChildren_replicate y n 17 [] []
    (some (tok0 .semicolon)) (some (tok0 (.identifier x)))
  rw [show (17 * n + 20) = ((17 * n + 17 + 1) + 1) + 1 by omega]
  simp only [parse, varToks]
  have key : parseLoop (17 * n + 17 + 1 + 1 + 1)
      ⟨tok0 .var :: tok0 (.identifier x) :: tok0 .semicolon :: chTokens y n,
        none, none, []⟩ []
      = (⟨[tok0 .eof],
          (match n with | 0 => some (tok0 .semicolon) | _ + 1 => some (tok0 .semicolon)),
          (match n with
            | 0 => some (tok0 (.identifier x))
            | _ + 1 => some (tok0 (.identifier y))),
          []⟩,
        [Stmt.var (tok0 (.identifier x)) none
          (List.replicate n (.expression (.variable' (tok0 (.identifier y)))))]) := by
    have loopStep : parseLoop (17 * n + 17 + 1 + 1 + 1)
        ⟨tok0 .var :: tok0 (.identifier x) :: tok0 .semicolon :: chTokens y n,
          none, none, []⟩ []
        = (match declaration (17 * n + 17 + 1 + 1)
              ⟨tok0 .var :: tok0 (.identifier x) :: tok0 .semicolon :: chTokens y n,
                none, none, []⟩ with
           | (s1, some st) => parseLoop (17 * n + 17 + 1 + 1) s1 ([] ++ [st])
           | (s1, none) =>
             parseLoop (17 * n + 17 + 1 + 1) (sync (17 * n + 17 + 1 + 1) s1) []) := by
      rfl
    have declStep : declaration (17 * n + 17 + 1 + 1)
        ⟨tok0 .var :: tok0 (.identifier x) :: tok0 .semicolon :: chTokens y n,
          none, none, []⟩
        = (match varChildren (17 * n + 17 + 1)
              ⟨chTokens y n, some (tok0 .semicolon), some (tok0 (.identifier x)), []⟩ [] with
           | (s6, none) => (s6, none)
           | (s6, some statements) =>
             (s6, some (Stmt.var (tok0 (.identifier x)) none statements))) := by
      rfl
    rw [loopStep, declStep, h2]
    cases n <;> rfl
  rw [key]
  rfl

end RLox
